import Mathlib

/-!
Frame hand-off pipeline of the camera node.

Shallow embedding of the double-buffered frame store
(`camera_handler.cpp`: `frame_cb`, the frame store globals; `web_server.cpp`:
the critical section of `stream_task`), of the stream admission path
(`handle_stream`, `clientProcessorTask`), of the worker (`stream_task`) and of
the lifecycle (`startStream`, `stopStream`); then of the credential store
(`wifi_manager.cpp`), the alarm escalation (`security_system.cpp`) and the
servo angles (`blynk_handler.cpp`).

Memory is modelled by value: a buffer is the list of its bytes, a pointer that
may be null is an `Option`.  `size_t` values are natural numbers (nothing is
ever added to them), the `uint32_t` counter wraps modulo `2^32`.
-/

namespace Camera

/-! ## Configuration constants (`config.h`) -/

/-- Constant `FRAME_WIDTH` (`#define FRAME_WIDTH 800`). -/
def FRAME_WIDTH : Nat := 800

/-- Constant `FRAME_HEIGHT` (`#define FRAME_HEIGHT 600`). -/
def FRAME_HEIGHT : Nat := 600

/-- Constant `MJPEG_BUF_SIZE` (`#define MJPEG_BUF_SIZE (FRAME_WIDTH * FRAME_HEIGHT * 2)`). -/
def MJPEG_BUF_SIZE : Nat := FRAME_WIDTH * FRAME_HEIGHT * 2

/-- Constant `MAX_CLIENTS` (`#define MAX_CLIENTS 3`). -/
def MAX_CLIENTS : Nat := 3

/-! ## Frame store (`camera_handler.cpp`, lines 4-17) -/

/-- The part of `uvc_frame_t` that `frame_cb` reads: the data pointer
(`none` is a null pointer, `some d` points at the bytes `d`) and the byte
count. -/
structure uvc_frame_t where
  data : Option (List Nat)
  data_bytes : Nat
deriving DecidableEq, Repr

/-- The frame store globals.  The two MJPEG buffers are held by value; they
are allocated once by `initializeBuffers`, which never returns when an
allocation fails, so they are non-null whenever `frame_cb` or `stream_task`
run. -/
structure FrameStore where
  mjpeg_buf_a : List Nat
  mjpeg_buf_b : List Nat
  frame_len_a : Nat
  frame_len_b : Nat
  frame_ready_a : Bool
  frame_ready_b : Bool
  use_buf_a : Bool
  frame_cnt_recv : Nat
deriving DecidableEq, Repr

/-- The values `frameBuffer` can take in `stream_task`. -/
inductive BufPtr where
  | buf_a
  | buf_b
deriving DecidableEq, Repr

/-- The bytes a buffer pointer refers to. -/
def deref (s : FrameStore) : BufPtr → List Nat
  | .buf_a => s.mjpeg_buf_a
  | .buf_b => s.mjpeg_buf_b

/-- The ready flag of the slot a buffer pointer refers to. -/
def readyOf (s : FrameStore) : BufPtr → Bool
  | .buf_a => s.frame_ready_a
  | .buf_b => s.frame_ready_b

/-- The stored length of the slot a buffer pointer refers to. -/
def lenOf (s : FrameStore) : BufPtr → Nat
  | .buf_a => s.frame_len_a
  | .buf_b => s.frame_len_b

/-- The store as the globals are initialised (`frame_len_* = 0`,
`frame_ready_* = false`, `use_buf_a = true`, `frame_cnt_recv = 0`), with the
two buffers as `initializeBuffers` left them (their content is whatever the
allocator returned). -/
def initStore (buf_a buf_b : List Nat) : FrameStore :=
  { mjpeg_buf_a := buf_a, mjpeg_buf_b := buf_b,
    frame_len_a := 0, frame_len_b := 0,
    frame_ready_a := false, frame_ready_b := false,
    use_buf_a := true, frame_cnt_recv := 0 }

/-- Model of `memcpy(dst, src, n)`: the first `n` bytes of `dst` are replaced by the
first `n` bytes of `src`. -/
def memcpy (dst src : List Nat) (n : Nat) : List Nat :=
  src.take n ++ dst.drop n

/-- The two early returns of `frame_cb` (lines 61-62), as a test of what is
let through. -/
def frame_valid : Option uvc_frame_t → Bool
  | none => false
  | some f =>
    match f.data with
    | none => false
    | some _ =>
      if f.data_bytes = 0 then false
      else if f.data_bytes > MJPEG_BUF_SIZE ∨ f.data_bytes < 2000 then false
      else true

/-- Function `frame_cb` (lines 59-83).  The critical section is one atomic step. -/
def frame_cb (s : FrameStore) (frame : Option uvc_frame_t) : FrameStore :=
  match frame with
  | none => s
  | some f =>
    match f.data with
    | none => s
    | some d =>
      if f.data_bytes = 0 then s
      else if f.data_bytes > MJPEG_BUF_SIZE ∨ f.data_bytes < 2000 then s
      else
        let s1 := { s with frame_cnt_recv := (s.frame_cnt_recv + 1) % 2 ^ 32 }
        if s1.use_buf_a = true ∧ s1.frame_ready_a = false then
          { s1 with
            mjpeg_buf_a := memcpy s1.mjpeg_buf_a d f.data_bytes,
            frame_len_a := f.data_bytes,
            frame_ready_a := true,
            use_buf_a := false }
        else if s1.use_buf_a = false ∧ s1.frame_ready_b = false then
          { s1 with
            mjpeg_buf_b := memcpy s1.mjpeg_buf_b d f.data_bytes,
            frame_len_b := f.data_bytes,
            frame_ready_b := true,
            use_buf_a := true }
        else s1

/-- Lines 64-82 of `frame_cb` on their own: what the call does with the
`n = data_bytes` bytes at `d = data` once both validation tests have passed. -/
def storeFrame (s : FrameStore) (d : List Nat) (n : Nat) : FrameStore :=
  let s1 := { s with frame_cnt_recv := (s.frame_cnt_recv + 1) % 2 ^ 32 }
  if s1.use_buf_a = true ∧ s1.frame_ready_a = false then
    { s1 with
      mjpeg_buf_a := memcpy s1.mjpeg_buf_a d n,
      frame_len_a := n,
      frame_ready_a := true,
      use_buf_a := false }
  else if s1.use_buf_a = false ∧ s1.frame_ready_b = false then
    { s1 with
      mjpeg_buf_b := memcpy s1.mjpeg_buf_b d n,
      frame_len_b := n,
      frame_ready_b := true,
      use_buf_a := true }
  else s1

/-- What the critical section of `stream_task` leaves in its two locals:
`frameBuffer` (`none` is `nullptr`) and `frameLen`. -/
structure Acquired where
  frameBuffer : Option BufPtr
  frameLen : Nat
deriving DecidableEq, Repr

/-- The acquire step of `stream_task` (lines 31-46): the locals start as
`nullptr` and `0`, and the critical section is one atomic step. -/
def acquireReadable (s : FrameStore) : Acquired × FrameStore :=
  if s.frame_ready_a = true ∧ s.use_buf_a = true then
    (⟨some .buf_a, s.frame_len_a⟩,
      { s with frame_ready_a := false, use_buf_a := false })
  else if s.frame_ready_b = true ∧ s.use_buf_a = false then
    (⟨some .buf_b, s.frame_len_b⟩,
      { s with frame_ready_b := false, use_buf_a := true })
  else
    (⟨none, 0⟩, s)

/-- The bytes `client.write(frameBuffer, frameLen)` would read after an
acquire step, when the guard `frameBuffer && frameLen > 0` (line 48) holds. -/
def exposed (r : Acquired × FrameStore) : Option (List Nat) :=
  match r.1.frameBuffer with
  | none => none
  | some p => if r.1.frameLen > 0 then some ((deref r.2 p).take r.1.frameLen) else none

/-- The critical section of `stopStream` (lines 184-188). -/
def stopStream_frames (s : FrameStore) : FrameStore :=
  { s with frame_ready_a := false, frame_ready_b := false, use_buf_a := true }

/-- The slot the selector `use_buf_a` designates: slot A when it is set,
slot B otherwise. -/
def designated (s : FrameStore) : BufPtr :=
  if s.use_buf_a = true then .buf_a else .buf_b

/-- The other slot. -/
def BufPtr.other : BufPtr → BufPtr
  | .buf_a => .buf_b
  | .buf_b => .buf_a

/-- Number of slots whose ready flag is set. -/
def readyCount (s : FrameStore) : Nat :=
  (if s.frame_ready_a = true then 1 else 0) + (if s.frame_ready_b = true then 1 else 0)

/-- A producer call or a consumer poll, each one atomic step on the store. -/
inductive Event where
  | push (frame : Option uvc_frame_t)
  | poll
deriving DecidableEq, Repr

/-- One event: the store after it, and what a poll returned. -/
def step (s : FrameStore) : Event → Option Acquired × FrameStore
  | .push frame => (none, frame_cb s frame)
  | .poll => (some (acquireReadable s).1, (acquireReadable s).2)

/-- The poll results of a sequence of events, and the store after it. -/
def runEvents : FrameStore → List Event → List (Option Acquired) × FrameStore
  | s, [] => ([], s)
  | s, e :: evs =>
    let r := step s e
    let rest := runEvents r.2 evs
    (r.1 :: rest.1, rest.2)

/-- A run of producer calls with no read in between. -/
def pushAll (s : FrameStore) (frames : List (Option uvc_frame_t)) : FrameStore :=
  frames.foldl frame_cb s

/-- The results of `n` successive acquire steps with no producer call in
between, and the store after them. -/
def acquireN : Nat → FrameStore → List Acquired × FrameStore
  | 0, s => ([], s)
  | n + 1, s =>
    let r := acquireReadable s
    let rest := acquireN n r.2
    (r.1 :: rest.1, rest.2)

/-- Both ready flags are set. -/
def bothReady (s : FrameStore) : Bool :=
  s.frame_ready_a && s.frame_ready_b

/-- Number of polls of a list of results that returned a frame. -/
def returnedCount (rs : List Acquired) : Nat :=
  (rs.filter (fun r => r.frameBuffer.isSome)).length

/-! ### Concrete inputs used in the examples below -/

/-- A freshly started store whose two `MJPEG_BUF_SIZE`-byte buffers are zeroed. -/
def freshStore : FrameStore :=
  initStore (List.replicate 960000 0) (List.replicate 960000 0)

/-- A frame of `n` bytes, each of value `b`. -/
def mkFrame (n b : Nat) : Option uvc_frame_t :=
  some { data := some (List.replicate n b), data_bytes := n }

/-- Store states reachable from the initial globals by producer calls,
acquire steps and the reset of `stopStream`. -/
inductive Reachable : FrameStore → Prop where
  | init (buf_a buf_b : List Nat) : Reachable (initStore buf_a buf_b)
  | push {s : FrameStore} (frame : Option uvc_frame_t) :
      Reachable s → Reachable (frame_cb s frame)
  | acquire {s : FrameStore} : Reachable s → Reachable (acquireReadable s).2
  | stop {s : FrameStore} : Reachable s → Reachable (stopStream_frames s)

/-! ## Stream admission (`web_server.cpp` lines 10-125, `camera_handler.cpp` lines 85-142) -/

/-- The streaming globals of `web_server.cpp` and `camera_handler.cpp`, with
what the code did to the outside world so far.  A `stream_client_t*` and a
`TaskHandle_t` are numbers; `none` is `NULL`.  `clientQueue` holds the pending
pointers in arrival order: both places that create it give it room for
`MAX_CLIENTS` items.  `streamTaskHandle` is the array of `MAX_CLIENTS` handles.
`stopped` lists the clients whose connection got `client.stop()`, `deleted`
the `stream_client_t` objects that were deleted, `spawned` the `stream_task`
tasks created (array index, client), `sent` the text written to each client,
and `nextTask` is the handle the next created task gets. -/
structure StreamSys where
  uvcStarted : Bool
  streaming_started : Bool
  clientProcessorHandle : Option Nat
  clientQueue : Option (List Nat)
  streamTaskHandle : List (Option Nat)
  nextTask : Nat
  stopped : List Nat
  deleted : List Nat
  spawned : List (Nat × Nat)
  sent : List (Nat × String)
deriving DecidableEq, Repr

/-- The response head `handle_stream` writes (lines 105-112); each `println`
ends its line with CR LF. -/
def streamHeader : String :=
  "HTTP/1.1 200 OK\r\n" ++
  "Content-Type: multipart/x-mixed-replace; boundary=frame\r\n" ++
  "Access-Control-Allow-Origin: *\r\n" ++
  "Cache-Control: no-cache, no-store, must-revalidate\r\n" ++
  "Pragma: no-cache\r\n" ++
  "Expires: 0\r\n" ++
  "Connection: keep-alive\r\n" ++
  "\r\n"

/-- Function `startStream` (lines 126-142).  `xQueueCreate` and task creation
are taken to succeed. -/
def startStream (y : StreamSys) : StreamSys :=
  let y1 := if y.uvcStarted = false then { y with uvcStarted := true } else y
  if y1.streaming_started = false then
    { y1 with
      clientQueue := some [],
      streamTaskHandle := List.replicate MAX_CLIENTS none,
      clientProcessorHandle := some y1.nextTask,
      nextTask := y1.nextTask + 1,
      streaming_started := true }
  else y1

/-- Function `handle_stream` (lines 95-125) for the request of client `c`;
`connected` is what `client.connected()` answers.  `xQueueSend` with a zero
timeout fails exactly when the queue already holds `MAX_CLIENTS` items. -/
def handle_stream (y : StreamSys) (c : Nat) (connected : Bool) : StreamSys :=
  let y1 := startStream y
  if connected = false then y1
  else
    let y2 := { y1 with sent := y1.sent ++ [(c, streamHeader)] }
    match y2.clientQueue with
    | none => y2
    | some q =>
      if q.length < MAX_CLIENTS then { y2 with clientQueue := some (q ++ [c]) }
      else { y2 with stopped := y2.stopped ++ [c], deleted := y2.deleted ++ [c] }

/-- The scan of `clientProcessorTask` (lines 94-102): the first index below
`MAX_CLIENTS` whose entry is `NULL`; `none` stands for `taskSlot == -1`. -/
def findFreeSlot (tbl : List (Option Nat)) : Option Nat :=
  (List.range MAX_CLIENTS).find? (fun i => tbl[i]? == some none)

/-- One iteration of the loop of `clientProcessorTask` (lines 89-123) that
receives an item; `none` when the task stays blocked in `xQueueReceive`
because the queue is empty.  Task creation is taken to succeed and to write
the new handle into `streamTaskHandle[taskSlot]`. -/
def clientProcessorTask_step (y : StreamSys) : Option StreamSys :=
  match y.clientQueue with
  | some (streamClient :: rest) =>
    let y1 := { y with clientQueue := some rest }
    match findFreeSlot y1.streamTaskHandle with
    | some taskSlot =>
      some { y1 with
        streamTaskHandle := y1.streamTaskHandle.set taskSlot (some y1.nextTask),
        spawned := y1.spawned ++ [(taskSlot, streamClient)],
        nextTask := y1.nextTask + 1 }
    | none =>
      some { y1 with
        stopped := y1.stopped ++ [streamClient],
        deleted := y1.deleted ++ [streamClient] }
  | _ => none

/-- Up to `n` iterations of `clientProcessorTask`, ending early when the task
blocks on the empty queue. -/
def clientProcessorTask_run : Nat → StreamSys → StreamSys
  | 0, y => y
  | n + 1, y =>
    match clientProcessorTask_step y with
    | none => y
    | some y1 => clientProcessorTask_run n y1

/-- A running system with three workers (handles 11, 12, 13 for clients 1, 2,
3), the dispatcher task 10 and an empty queue. -/
def fullSys : StreamSys :=
  { uvcStarted := true, streaming_started := true,
    clientProcessorHandle := some 10,
    clientQueue := some [],
    streamTaskHandle := [some 11, some 12, some 13],
    nextTask := 14,
    stopped := [], deleted := [],
    spawned := [(0, 1), (1, 2), (2, 3)],
    sent := [(1, streamHeader), (2, streamHeader), (3, streamHeader)] }

/-! ## Worker exit, lifecycle and the multipart part
(`web_server.cpp` lines 48-56 and 74-92, `camera_handler.cpp` lines 144-192) -/

/-- The streaming globals as they are initialised (`web_server.cpp` lines
10-11, `camera_handler.cpp` lines 20-23); the first task created gets
handle 1. -/
def initSys : StreamSys :=
  { uvcStarted := false, streaming_started := false,
    clientProcessorHandle := none,
    clientQueue := none,
    streamTaskHandle := [none, none, none],
    nextTask := 1,
    stopped := [], deleted := [], spawned := [], sent := [] }

/-- The loop of `stream_task` lines 81-88: the first entry below `MAX_CLIENTS`
that equals the handle of the running task is set to `NULL`. -/
def clearOwnSlot (tbl : List (Option Nat)) (current : Nat) : List (Option Nat) :=
  match (List.range MAX_CLIENTS).find? (fun i => tbl[i]? == some (some current)) with
  | some i => tbl.set i none
  | none => tbl

/-- The cleanup of `stream_task` (lines 74-92), run by the task with handle
`current` for its client `streamClient`: `client.stop()`, the table update,
`delete streamClient`. -/
def stream_task_exit (y : StreamSys) (current streamClient : Nat) : StreamSys :=
  { y with
    stopped := y.stopped ++ [streamClient],
    streamTaskHandle := clearOwnSlot y.streamTaskHandle current,
    deleted := y.deleted ++ [streamClient] }

/-- States of the streaming globals reachable from the first `startStream`
by stream requests, iterations of `clientProcessorTask` and exits of workers
whose handle is in the table. -/
inductive SysReachable : StreamSys → Prop where
  | start : SysReachable (startStream initSys)
  | request {y : StreamSys} (c : Nat) (connected : Bool) :
      SysReachable y → SysReachable (handle_stream y c connected)
  | dispatch {y y1 : StreamSys} :
      SysReachable y → clientProcessorTask_step y = some y1 → SysReachable y1
  | exit {y : StreamSys} (current streamClient : Nat) :
      SysReachable y → some current ∈ y.streamTaskHandle →
      SysReachable (stream_task_exit y current streamClient)

/-- The started system after clients 1, 2 and 3 asked for the stream and the
dispatcher has not run yet. -/
def pending3 : StreamSys :=
  handle_stream (handle_stream (handle_stream (startStream initSys) 1 true) 2 true) 3 true

/-- The started system after clients 1, 2 and 3 asked for the stream and the
dispatcher gave each of them a worker. -/
def admitted3 : StreamSys :=
  clientProcessorTask_run 3 pending3

/-- The whole node: the frame store, the streaming globals, whether `uvc` is
non-null (`initializeCamera` ran), and the handles given to `vTaskDelete`. -/
structure Node where
  store : FrameStore
  sys : StreamSys
  uvc : Bool
  killed : List Nat
deriving DecidableEq, Repr

/-- The node before the first `startStream`, buffers allocated and camera
initialised. -/
def initNode (buf_a buf_b : List Nat) : Node :=
  { store := initStore buf_a buf_b, sys := initSys, uvc := true, killed := [] }

/-- Function `startStream` on the whole node: it touches the streaming
globals only. -/
def Node.startStream (n : Node) : Node :=
  { n with sys := Camera.startStream n.sys }

/-- The loop of `stopStream` lines 155-160: every non-null entry below
`MAX_CLIENTS` is passed to `vTaskDelete` and set to `NULL`. -/
def killWorkers (tbl : List (Option Nat)) (killed : List Nat) :
    List (Option Nat) × List Nat :=
  (List.range MAX_CLIENTS).foldl
    (fun acc i =>
      match acc.1[i]? with
      | some (some h) => (acc.1.set i none, acc.2 ++ [h])
      | _ => acc)
    (tbl, killed)

/-- The loop of `stopStream` lines 169-178 over the items still in the queue
(the pointers in the queue come from `new` and are non-null): each one gets
`client.stop()` and is deleted. -/
def drainQueue : List Nat → StreamSys → StreamSys
  | [], y => y
  | streamClient :: rest, y =>
    drainQueue rest
      { y with
        stopped := y.stopped ++ [streamClient],
        deleted := y.deleted ++ [streamClient] }

/-- Function `stopStream` (lines 144-192). -/
def stopStream (n : Node) : Node :=
  if n.sys.streaming_started = false then n
  else
    let y1 :=
      if n.sys.uvcStarted = true ∧ n.uvc = true then { n.sys with uvcStarted := false }
      else n.sys
    let kw := killWorkers y1.streamTaskHandle n.killed
    let y2 := { y1 with streamTaskHandle := kw.1 }
    let killed2 :=
      match y2.clientProcessorHandle with
      | some h => kw.2 ++ [h]
      | none => kw.2
    let y3 := { y2 with clientProcessorHandle := none }
    let y4 :=
      match y3.clientQueue with
      | some q => { drainQueue q y3 with clientQueue := none }
      | none => y3
    { store := stopStream_frames n.store,
      sys := { y4 with streaming_started := false },
      uvc := n.uvc,
      killed := killed2 }

/-- The client served by the worker in table entry `i`: the client of the last
task created for that entry. -/
def workerClient (y : StreamSys) (i : Nat) : Option Nat :=
  ((y.spawned.filter (fun e => e.1 = i)).getLast?).map (fun e => e.2)

/-- The decimal digits of `v`, most significant first, as the digit loop of
`utoa(v, buf, 10)` leaves them; `fuel` bounds the number of digits. -/
def decimalDigits : Nat → Nat → List Nat
  | 0, _ => []
  | fuel + 1, v =>
    if v / 10 = 0 then [v % 10] else decimalDigits fuel (v / 10) ++ [v % 10]

/-- The bytes of the Arduino `String(frameLen)`: the decimal digits of the
value as ASCII characters. -/
def String_of_size (frameLen : Nat) : List Nat :=
  (decimalDigits (frameLen + 1) frameLen).map (fun d => 48 + d)

/-- The bytes `client.print(text)` sends for an ASCII text. -/
def print (text : String) : List Nat :=
  text.toList.map Char.toNat

/-- The number a list of ASCII digits reads as in base 10. -/
def decimalValue (bytes : List Nat) : Nat :=
  bytes.foldl (fun acc b => 10 * acc + (b - 48)) 0

/-- One pass of the loop body of `stream_task`, lines 31-56, with the send
taken as one step: the acquire step, then the bytes written to the client
socket, none when the guard `frameBuffer && frameLen > 0` fails. -/
def stream_task_part (s : FrameStore) : List Nat × FrameStore :=
  let r := acquireReadable s
  match r.1.frameBuffer with
  | none => ([], r.2)
  | some p =>
    if r.1.frameLen > 0 then
      let boundary :=
        print "--frame\r\n" ++ print "Content-Type: image/jpeg\r\n" ++
          (print "Content-Length: " ++ String_of_size r.1.frameLen ++ print "\r\n\r\n")
      (boundary ++ (deref r.2 p).take r.1.frameLen ++ print "\r\n", r.2)
    else ([], r.2)

/-! ## The poll cadence and the hand-off log
(`web_server.cpp` lines 24-72) -/

/-- What one pass of the loop of `stream_task` did: whether it ran the acquire
step, the bytes it wrote, the value of `lastFrameTime` and the store after
it. -/
structure PassResult where
  polled : Bool
  written : List Nat
  lastFrameTime : Nat
  store : FrameStore
deriving DecidableEq, Repr

/-- One pass of the loop of `stream_task` (lines 29-68).  `now` is what
`millis()` returns at line 29 and `sentAt` what it returns at line 56;
`unsigned long` has 32 bits, so the difference of line 29 is taken modulo
`2^32`.  `lastFrameTime` is set only inside the guard of line 48. -/
def stream_task_pass (lastFrameTime : Nat) (s : FrameStore) (now sentAt : Nat) :
    PassResult :=
  if 10 ≤ (now + 2 ^ 32 - lastFrameTime) % 2 ^ 32 then
    { polled := true,
      written := (stream_task_part s).1,
      lastFrameTime :=
        if (acquireReadable s).1.frameBuffer ≠ none ∧ (acquireReadable s).1.frameLen > 0
        then sentAt else lastFrameTime,
      store := (acquireReadable s).2 }
  else
    { polled := false, written := [], lastFrameTime := lastFrameTime, store := s }

/-- The frame a slot holds: its first `length` bytes and its length. -/
def slotFrame (s : FrameStore) (p : BufPtr) : List Nat × Nat :=
  ((deref s p).take (lenOf s p), lenOf s p)

/-- The frames a producer call stored: the content of each slot whose ready
flag the call set. -/
def newlyStored (s s1 : FrameStore) : List (List Nat × Nat) :=
  (if s.frame_ready_a = false ∧ s1.frame_ready_a = true then [slotFrame s1 .buf_a] else []) ++
  (if s.frame_ready_b = false ∧ s1.frame_ready_b = true then [slotFrame s1 .buf_b] else [])

/-- The frame an acquire step handed out: the first `frameLen` bytes behind
`frameBuffer`, and `frameLen`. -/
def returnedFrame (r : Acquired × FrameStore) : List (List Nat × Nat) :=
  match r.1.frameBuffer with
  | none => []
  | some p => [((deref r.2 p).take r.1.frameLen, r.1.frameLen)]

/-- The frames stored by the producer calls of a sequence of events, the
frames returned by its polls, both in order, and the store after it. -/
def runLog : FrameStore → List Event →
    List (List Nat × Nat) × List (List Nat × Nat) × FrameStore
  | s, [] => ([], [], s)
  | s, .push frame :: evs =>
    let rest := runLog (frame_cb s frame) evs
    (newlyStored s (frame_cb s frame) ++ rest.1, rest.2.1, rest.2.2)
  | s, .poll :: evs =>
    let rest := runLog (acquireReadable s).2 evs
    (rest.1, returnedFrame (acquireReadable s) ++ rest.2.1, rest.2.2)

/-- The frames waiting in the store, in the order in which polls return them:
the slot the selector designates first when both are ready. -/
def pending (s : FrameStore) : List (List Nat × Nat) :=
  if s.frame_ready_a = true ∧ s.frame_ready_b = true then
    [slotFrame s (designated s), slotFrame s (designated s).other]
  else if s.frame_ready_a = true then [slotFrame s .buf_a]
  else if s.frame_ready_b = true then [slotFrame s .buf_b]
  else []

/-! ## Credentials in EEPROM (`wifi_manager.cpp` lines 24-108) -/

/-- The credential globals and the RAM copy of the EEPROM.  A `String` is the
list of its character codes.  The size of the EEPROM is set by the sketch
(`EEPROM.begin`) and is the length of `eeprom` here. -/
structure Credentials where
  eeprom : List Nat
  savedSSID : List Nat
  savedPassword : List Nat
deriving DecidableEq, Repr

/-- Library call `EEPROM.read(addr)`: the byte at `addr`, 0 outside the
EEPROM. -/
def EEPROM_read (eeprom : List Nat) (addr : Nat) : Nat :=
  eeprom.getD addr 0

/-- Library call `EEPROM.write(addr, val)`: stores the low 8 bits of `val`;
no effect outside the EEPROM. -/
def EEPROM_write (eeprom : List Nat) (addr val : Nat) : List Nat :=
  eeprom.set addr (val % 256)

/-- The loop of `readEEPROM` (lines 80-91) from index `i` on, with `k` passes
left. -/
def readEEPROM_from (eeprom : List Nat) (offset : Nat) : Nat → Nat → List Nat
  | 0, _ => []
  | k + 1, i =>
    let c := EEPROM_read eeprom (offset + i)
    if c = 0 then []
    else if 32 ≤ c ∧ c ≤ 126 then c :: readEEPROM_from eeprom offset k (i + 1)
    else []

/-- Function `readEEPROM` (lines 77-93). -/
def readEEPROM (eeprom : List Nat) (offset maxLen : Nat) : List Nat :=
  readEEPROM_from eeprom offset maxLen 0

/-- The loop of `writeEEPROM` (lines 97-107) from index `i` on, with `k`
passes left. -/
def writeEEPROM_from (offset : Nat) (value : List Nat) : Nat → Nat → List Nat → List Nat
  | 0, _, eeprom => eeprom
  | k + 1, i, eeprom =>
    writeEEPROM_from offset value k (i + 1)
      (if i < value.length then EEPROM_write eeprom (offset + i) (value.getD i 0)
       else EEPROM_write eeprom (offset + i) 0)

/-- Function `writeEEPROM` (lines 95-108). -/
def writeEEPROM (eeprom : List Nat) (offset maxLen : Nat) (value : List Nat) : List Nat :=
  writeEEPROM_from offset value maxLen 0 eeprom

/-- Function `saveCredentials` (lines 64-75). -/
def saveCredentials (c : Credentials) (ssid password : List Nat) : Credentials :=
  if ssid.length > 32 ∨ password.length > 64 then c
  else
    { eeprom := writeEEPROM (writeEEPROM c.eeprom 0 32 ssid) 32 64 password,
      savedSSID := ssid,
      savedPassword := password }

/-- Function `loadCredentials` (lines 35-62).  The last loop clears both
values as soon as it meets a character of `savedSSID` outside 32..126. -/
def loadCredentials (c : Credentials) : Credentials :=
  let c1 : Credentials :=
    { c with
      savedSSID := readEEPROM c.eeprom 0 32,
      savedPassword := readEEPROM c.eeprom 32 64 }
  let c2 : Credentials :=
    if c1.savedSSID.length = 0 ∨ c1.savedSSID.length > 32 ∨ c1.savedPassword.length > 64 then
      { eeprom := (List.range 96).foldl (fun e i => EEPROM_write e i 0) c1.eeprom,
        savedSSID := [],
        savedPassword := [] }
    else c1
  if c2.savedSSID.all (fun ch => decide (32 ≤ ch ∧ ch ≤ 126)) then c2
  else { c2 with savedSSID := [], savedPassword := [] }

/-! ## Alarm escalation (`security_system.h` lines 23-33, `security_system.cpp`
lines 6-11 and 301-446) -/

/-- Constant `OWNER_SMS_BUZZER_DELAY`. -/
def OWNER_SMS_BUZZER_DELAY : Nat := 20000

/-- Constant `NEIGHBOR_SMS_LOCK_DELAY`. -/
def NEIGHBOR_SMS_LOCK_DELAY : Nat := 40000

/-- Constant `AUTO_RESET_NO_MOTION`. -/
def AUTO_RESET_NO_MOTION : Nat := 5000

/-- The enumeration `SecurityState`. -/
inductive SecurityState where
  | SECURITY_IDLE
  | SECURITY_MOTION_DETECTED
  | SECURITY_WAITING_OWNER_SMS
  | SECURITY_WAITING_NEIGHBOR_SMS
  | SECURITY_ALARM_ACTIVE
deriving DecidableEq, Repr

/-- The security globals, and two counters of what the code asked for: the
calls of `sendSMSAsync` to the owner and to the neighbour since
`onMotionDetected` last left `SECURITY_IDLE`. -/
structure Security where
  currentSecurityState : SecurityState
  motionDetectedTime : Nat
  lastMotionSeenTime : Nat
  ownerSmsAlreadySent : Bool
  neighborSmsAlreadySent : Bool
  familyMemberDetected : Bool
  ownerSmsRequests : Nat
  neighborSmsRequests : Nat
deriving DecidableEq, Repr

/-- The security globals as they are initialised (lines 6-11). -/
def initSecurity : Security :=
  { currentSecurityState := .SECURITY_IDLE,
    motionDetectedTime := 0, lastMotionSeenTime := 0,
    ownerSmsAlreadySent := false, neighborSmsAlreadySent := false,
    familyMemberDetected := false,
    ownerSmsRequests := 0, neighborSmsRequests := 0 }

/-- Function `resetSecurityState` (lines 379-390). -/
def resetSecurityState (x : Security) : Security :=
  { x with
    currentSecurityState := .SECURITY_IDLE,
    motionDetectedTime := 0,
    lastMotionSeenTime := 0,
    ownerSmsAlreadySent := false,
    neighborSmsAlreadySent := false,
    familyMemberDetected := false }

/-- Function `onMotionDetected` (lines 301-336); `t1` and `t2` are what
`millis()` returns at lines 302 and 316. -/
def onMotionDetected (x : Security) (t1 t2 : Nat) : Security :=
  let x1 := { x with lastMotionSeenTime := t1 }
  if x1.currentSecurityState = .SECURITY_IDLE then
    { x1 with
      currentSecurityState := .SECURITY_WAITING_OWNER_SMS,
      motionDetectedTime := t2,
      ownerSmsAlreadySent := false,
      neighborSmsAlreadySent := false,
      familyMemberDetected := false,
      ownerSmsRequests := 0,
      neighborSmsRequests := 0 }
  else x1

/-- Function `updateMotionTimestamp` (lines 338-341). -/
def updateMotionTimestamp (x : Security) (t : Nat) : Security :=
  { x with lastMotionSeenTime := t }

/-- Function `onMotionEnded` (lines 344-360). -/
def onMotionEnded (x : Security) : Security :=
  if x.currentSecurityState ≠ .SECURITY_IDLE ∧
      x.currentSecurityState ≠ .SECURITY_ALARM_ACTIVE then
    resetSecurityState x
  else x

/-- Function `onFamilyMemberDetected` (lines 362-377). -/
def onFamilyMemberDetected (x : Security) : Security :=
  resetSecurityState { x with familyMemberDetected := true }

/-- Function `checkSecurityTimers` (lines 392-446); `currentTime` is what
`millis()` returns, and the two differences are 32-bit unsigned. -/
def checkSecurityTimers (x : Security) (currentTime : Nat) : Security :=
  if x.currentSecurityState = .SECURITY_IDLE ∨ x.familyMemberDetected = true then x
  else
    let elapsedTime := (currentTime + 2 ^ 32 - x.motionDetectedTime) % 2 ^ 32
    let timeSinceLastMotion := (currentTime + 2 ^ 32 - x.lastMotionSeenTime) % 2 ^ 32
    if timeSinceLastMotion ≥ AUTO_RESET_NO_MOTION then resetSecurityState x
    else
      match x.currentSecurityState with
      | .SECURITY_WAITING_OWNER_SMS =>
        if elapsedTime ≥ OWNER_SMS_BUZZER_DELAY ∧ x.ownerSmsAlreadySent = false then
          { x with
            ownerSmsRequests := x.ownerSmsRequests + 1,
            ownerSmsAlreadySent := true,
            currentSecurityState := .SECURITY_WAITING_NEIGHBOR_SMS }
        else x
      | .SECURITY_WAITING_NEIGHBOR_SMS =>
        if elapsedTime ≥ NEIGHBOR_SMS_LOCK_DELAY ∧ x.neighborSmsAlreadySent = false then
          { x with
            neighborSmsRequests := x.neighborSmsRequests + 1,
            neighborSmsAlreadySent := true,
            currentSecurityState := .SECURITY_ALARM_ACTIVE }
        else x
      | _ => x

/-- Security states reachable from `resetSecurityState` by the five entry
points, at any clock values. -/
inductive SecReachable : Security → Prop where
  | reset : SecReachable (resetSecurityState initSecurity)
  | motion {x : Security} (t1 t2 : Nat) : SecReachable x → SecReachable (onMotionDetected x t1 t2)
  | stamp {x : Security} (t : Nat) : SecReachable x → SecReachable (updateMotionTimestamp x t)
  | timers {x : Security} (t : Nat) : SecReachable x → SecReachable (checkSecurityTimers x t)
  | ended {x : Security} : SecReachable x → SecReachable (onMotionEnded x)
  | family {x : Security} : SecReachable x → SecReachable (onFamilyMemberDetected x)
  | again {x : Security} : SecReachable x → SecReachable (resetSecurityState x)

/-! ## Servo angles (`blynk_handler.cpp` lines 14-25 and 59-92) -/

/-- Constant `MIN_ANGLE`. -/
def MIN_ANGLE : Int := 0

/-- Constant `MAX_ANGLE`. -/
def MAX_ANGLE : Int := 180

/-- Constant `SERVO_STEP`. -/
def SERVO_STEP : Int := 4

/-- The two servo angle globals (`int`; the values stay far from the limits
of `int`, so no wrap-around is modelled). -/
structure Servos where
  servo1Angle : Int
  servo2Angle : Int
deriving DecidableEq, Repr

/-- The angles as they are initialised (lines 14-15). -/
def initServos : Servos :=
  { servo1Angle := 90, servo2Angle := 134 }

/-- Function `updateServoPositions` (lines 59-84) for given values of the four
hold flags. -/
def updateServoPositions (v : Servos)
    (holdServo1Left holdServo1Right holdServo2Down holdServo2Up : Bool) : Servos :=
  let v1 :=
    if holdServo1Left = true ∧ v.servo1Angle > MIN_ANGLE then
      { v with servo1Angle := max MIN_ANGLE (v.servo1Angle - SERVO_STEP) }
    else v
  let v2 :=
    if holdServo1Right = true ∧ v1.servo1Angle < MAX_ANGLE then
      { v1 with servo1Angle := min MAX_ANGLE (v1.servo1Angle + SERVO_STEP) }
    else v1
  let v3 :=
    if holdServo2Down = true ∧ v2.servo2Angle > MIN_ANGLE then
      { v2 with servo2Angle := max MIN_ANGLE (v2.servo2Angle - SERVO_STEP) }
    else v2
  if holdServo2Up = true ∧ v3.servo2Angle < MAX_ANGLE then
    { v3 with servo2Angle := min MAX_ANGLE (v3.servo2Angle + SERVO_STEP) }
  else v3

/-- Function `moveServoToCenter` (lines 86-92). -/
def moveServoToCenter (_v : Servos) : Servos :=
  { servo1Angle := 90, servo2Angle := 134 }

/-- Angle pairs reachable from the initial values by `updateServoPositions`
with any hold flags and by `moveServoToCenter`. -/
inductive ServoReachable : Servos → Prop where
  | init : ServoReachable initServos
  | update {v : Servos} (l r d u : Bool) :
      ServoReachable v → ServoReachable (updateServoPositions v l r d u)
  | center {v : Servos} : ServoReachable v → ServoReachable (moveServoToCenter v)

/-! ## Helper lemmas -/

theorem MJPEG_BUF_SIZE_eq : MJPEG_BUF_SIZE = 960000 := by decide

theorem frame_cb_in_range (s : FrameStore) (f : uvc_frame_t) (d : List Nat)
    (hd : f.data = some d) (hlo : 2000 ≤ f.data_bytes) (hhi : f.data_bytes ≤ MJPEG_BUF_SIZE) :
    frame_cb s (some f) = storeFrame s d f.data_bytes := by
  have h0 : f.data_bytes ≠ 0 := by omega
  have h1 : ¬ (f.data_bytes > MJPEG_BUF_SIZE ∨ f.data_bytes < 2000) := by omega
  simp only [frame_cb, storeFrame, hd, h0, h1, if_false]

theorem frame_cb_out_of_range (s : FrameStore) (f : uvc_frame_t)
    (h : f.data_bytes < 2000 ∨ f.data_bytes > MJPEG_BUF_SIZE) :
    frame_cb s (some f) = s := by
  cases hd : f.data with
  | none => simp [frame_cb, hd]
  | some d =>
    by_cases h0 : f.data_bytes = 0
    · simp [frame_cb, hd, h0]
    · have h1 : f.data_bytes > MJPEG_BUF_SIZE ∨ f.data_bytes < 2000 := by omega
      simp only [frame_cb, hd, h0, h1, if_true, if_false]

theorem memcpy_take (dst src : List Nat) (n : Nat) (h : n ≤ src.length) :
    (memcpy dst src n).take n = src.take n := by
  unfold memcpy
  rw [List.take_append_of_le_length (by simp [h])]
  simp

theorem memcpy_length (dst src : List Nat) (n : Nat) (h : n ≤ src.length) (h2 : n ≤ dst.length) :
    (memcpy dst src n).length = dst.length := by
  unfold memcpy
  simp
  omega

theorem frame_cb_null_data (s : FrameStore) (f : uvc_frame_t) (hd : f.data = none) :
    frame_cb s (some f) = s := by
  simp [frame_cb, hd]

/-- Every producer call either leaves the store as it is or runs lines 64-82
on a frame that passed validation. -/
theorem frame_cb_cases (s : FrameStore) (frame : Option uvc_frame_t) :
    frame_cb s frame = s ∨
    ∃ f d, frame = some f ∧ f.data = some d ∧ 2000 ≤ f.data_bytes ∧
      f.data_bytes ≤ MJPEG_BUF_SIZE ∧ frame_cb s frame = storeFrame s d f.data_bytes := by
  cases frame with
  | none => exact Or.inl rfl
  | some f =>
    cases hd : f.data with
    | none => exact Or.inl (frame_cb_null_data s f hd)
    | some d =>
      by_cases h : f.data_bytes < 2000 ∨ f.data_bytes > MJPEG_BUF_SIZE
      · exact Or.inl (frame_cb_out_of_range s f h)
      · exact Or.inr ⟨f, d, rfl, hd, by omega, by omega,
          frame_cb_in_range s f d hd (by omega) (by omega)⟩

theorem storeFrame_selector (s : FrameStore) (d : List Nat) (n : Nat)
    (h : s.use_buf_a = (s.frame_ready_a == s.frame_ready_b)) :
    (storeFrame s d n).use_buf_a =
      ((storeFrame s d n).frame_ready_a == (storeFrame s d n).frame_ready_b) := by
  rcases s with ⟨a, b, la, lb, ra, rb, u, c⟩
  cases ra <;> cases rb <;> cases u <;> simp_all [storeFrame]

theorem reachable_selector (s : FrameStore) (h : Reachable s) :
    s.use_buf_a = (s.frame_ready_a == s.frame_ready_b) := by
  induction h with
  | init a b => rfl
  | @push s0 frame _ ih =>
    rcases frame_cb_cases s0 frame with h0 | ⟨f, d, _, _, _, _, h1⟩
    · rw [h0]; exact ih
    · rw [h1]; exact storeFrame_selector s0 d _ ih
  | @acquire s0 _ ih =>
    rcases s0 with ⟨a, b, la, lb, ra, rb, u, c⟩
    cases ra <;> cases rb <;> cases u <;> simp_all [acquireReadable]
  | stop _ ih => simp [stopStream_frames]

/-! ## C1: integrity -/

theorem pushAll_bothReady (frames : List (Option uvc_frame_t)) :
    ∀ (s : FrameStore), s.frame_ready_a = true → s.frame_ready_b = true →
      (pushAll s frames).mjpeg_buf_a = s.mjpeg_buf_a ∧
      (pushAll s frames).mjpeg_buf_b = s.mjpeg_buf_b ∧
      (pushAll s frames).frame_len_a = s.frame_len_a ∧
      (pushAll s frames).frame_len_b = s.frame_len_b ∧
      (pushAll s frames).frame_ready_a = true ∧
      (pushAll s frames).frame_ready_b = true ∧
      (pushAll s frames).use_buf_a = s.use_buf_a := by
  induction frames with
  | nil => intro s ha hb; simp [pushAll, ha, hb]
  | cons frame frames ih =>
    intro s ha hb
    have hstep : (frame_cb s frame).mjpeg_buf_a = s.mjpeg_buf_a ∧
        (frame_cb s frame).mjpeg_buf_b = s.mjpeg_buf_b ∧
        (frame_cb s frame).frame_len_a = s.frame_len_a ∧
        (frame_cb s frame).frame_len_b = s.frame_len_b ∧
        (frame_cb s frame).frame_ready_a = true ∧
        (frame_cb s frame).frame_ready_b = true ∧
        (frame_cb s frame).use_buf_a = s.use_buf_a := by
      rcases frame_cb_cases s frame with h0 | ⟨f, d, _, _, _, _, h1⟩
      · rw [h0]; simp [ha, hb]
      · rw [h1]
        rcases s with ⟨a, b, la, lb, ra, rb, u, c⟩
        cases u <;> simp_all [storeFrame]
    obtain ⟨e1, e2, e3, e4, e5, e6, e7⟩ := hstep
    have := ih (frame_cb s frame) e5 e6
    simp only [pushAll, List.foldl_cons] at this ⊢
    simp only [e1, e2, e3, e4, e7] at this
    exact this

/-- C2, as stated, fails: after two frames are stored in the fresh store
(2000 bytes of 1 into slot A, then 3000 bytes of 2 into slot B) both slots are
ready and the selector designates slot A; the next acquire step returns slot
A, the slot the selector designates, holding the older frame, not the most
recently completed write. -/
theorem most_recent_wins_counterexample :
    (pushAll freshStore [mkFrame 2000 1, mkFrame 3000 2]).frame_ready_a = true ∧
    (pushAll freshStore [mkFrame 2000 1, mkFrame 3000 2]).frame_ready_b = true ∧
    (pushAll freshStore [mkFrame 2000 1, mkFrame 3000 2]).use_buf_a = true ∧
    (acquireReadable (pushAll freshStore [mkFrame 2000 1, mkFrame 3000 2])).1
      = ⟨some .buf_a, 2000⟩ ∧
    (acquireReadable (pushAll freshStore [mkFrame 2000 1, mkFrame 3000 2])).1
      ≠ ⟨some .buf_b, 3000⟩ :=
  ⟨by decide, by decide, by decide, by decide, by decide⟩

/-- C2, amended: in a reachable store in which a producer call has just made
both slots ready (followed by any number of further producer calls and no
poll), that call wrote slot B while slot A already held an unconsumed frame;
the next acquire step returns slot A, the slot the selector designates and the
older of the two writes, with the length stored before, clears the ready flag
of slot A only and flips the selector; the acquire step after it returns slot
B, the most recent write. -/
theorem oldest_first_when_both_ready (s : FrameStore) (frame : Option uvc_frame_t)
    (more : List (Option uvc_frame_t)) (hr : Reachable s)
    (hnot : bothReady s = false) (hboth : bothReady (frame_cb s frame) = true) :
    s.frame_ready_a = true ∧ s.frame_ready_b = false ∧
    (pushAll (frame_cb s frame) more).mjpeg_buf_a = s.mjpeg_buf_a ∧
    (pushAll (frame_cb s frame) more).frame_len_a = s.frame_len_a ∧
    (∃ f d, frame = some f ∧ f.data = some d ∧
      (pushAll (frame_cb s frame) more).frame_len_b = f.data_bytes ∧
      (pushAll (frame_cb s frame) more).mjpeg_buf_b = memcpy s.mjpeg_buf_b d f.data_bytes) ∧
    designated (pushAll (frame_cb s frame) more) = .buf_a ∧
    (acquireReadable (pushAll (frame_cb s frame) more)).1 = ⟨some .buf_a, s.frame_len_a⟩ ∧
    (acquireReadable (pushAll (frame_cb s frame) more)).2.frame_ready_a = false ∧
    (acquireReadable (pushAll (frame_cb s frame) more)).2.frame_ready_b = true ∧
    (acquireReadable (pushAll (frame_cb s frame) more)).2.use_buf_a = false ∧
    (acquireReadable (acquireReadable (pushAll (frame_cb s frame) more)).2).1
      = ⟨some .buf_b, (frame_cb s frame).frame_len_b⟩ := by
  have hinv := reachable_selector s hr
  rcases frame_cb_cases s frame with h0 | ⟨f, d, hf, hd, _, _, h1⟩
  · rw [h0] at hboth; rw [hnot] at hboth; exact absurd hboth (by decide)
  · have hs1 : s.frame_ready_a = true ∧ s.frame_ready_b = false ∧
        (frame_cb s frame).frame_ready_a = true ∧ (frame_cb s frame).frame_ready_b = true ∧
        (frame_cb s frame).use_buf_a = true ∧
        (frame_cb s frame).mjpeg_buf_a = s.mjpeg_buf_a ∧
        (frame_cb s frame).frame_len_a = s.frame_len_a ∧
        (frame_cb s frame).frame_len_b = f.data_bytes ∧
        (frame_cb s frame).mjpeg_buf_b = memcpy s.mjpeg_buf_b d f.data_bytes := by
      rw [h1] at hboth ⊢
      rcases s with ⟨a, b, la, lb, ra, rb, u, c⟩
      cases ra <;> cases rb <;> cases u <;> simp_all [storeFrame, bothReady]
    obtain ⟨ha, hb, ra1, rb1, u1, ba1, la1, lb1, bb1⟩ := hs1
    obtain ⟨p1, p2, p3, p4, p5, p6, p7⟩ := pushAll_bothReady more (frame_cb s frame) ra1 rb1
    refine ⟨ha, hb, by rw [p1, ba1], by rw [p3, la1],
      ⟨f, d, hf, hd, by rw [p4, lb1], by rw [p2, bb1]⟩, ?_, ?_, ?_, ?_, ?_, ?_⟩ <;>
      simp [designated, acquireReadable, p3, p4, p5, p6, p7, u1, la1, lb1]

/-- Witness of C2 (amended): the fresh store after one stored frame is
reachable and has one slot ready; a second frame makes both ready, a third is
pushed after it, and the poll returns slot A with the first frame's length. -/
theorem oldest_first_when_both_ready_witness :
    Reachable (frame_cb freshStore (mkFrame 2000 1)) ∧
    bothReady (frame_cb freshStore (mkFrame 2000 1)) = false ∧
    bothReady (frame_cb (frame_cb freshStore (mkFrame 2000 1)) (mkFrame 3000 2)) = true ∧
    (acquireReadable (pushAll (frame_cb (frame_cb freshStore (mkFrame 2000 1)) (mkFrame 3000 2))
      [mkFrame 4000 3])).1
      = ⟨some .buf_a, (frame_cb freshStore (mkFrame 2000 1)).frame_len_a⟩ :=
  ⟨Reachable.push _ (Reachable.init _ _), by decide, by decide,
   (oldest_first_when_both_ready (frame_cb freshStore (mkFrame 2000 1)) (mkFrame 3000 2)
      [mkFrame 4000 3] (Reachable.push _ (Reachable.init _ _)) (by decide) (by decide)).2.2.2.2.2.2.1⟩

/-! ## C3: the four-frame scenario -/

theorem acquireN_idle (n : Nat) (s : FrameStore)
    (ha : s.frame_ready_a = false) (hb : s.frame_ready_b = false) :
    acquireN n s = (List.replicate n ⟨none, 0⟩, s) := by
  induction n with
  | zero => rfl
  | succ n ih =>
    have h : acquireReadable s = (⟨none, 0⟩, s) := by
      simp [acquireReadable, ha, hb]
    simp only [acquireN, h, ih, List.replicate_succ]

/-- C3, as stated, fails: after frames of 50000, 100, 60000 and 70000 bytes
are pushed into the fresh store the received counter is 3, not 4, slot A holds
the 50000-byte frame and slot B the 60000-byte frame, and four polls return
these two and then nothing: the 70000-byte frame is not stored. -/
theorem scenario_counterexample :
    (pushAll freshStore
      [mkFrame 50000 1, mkFrame 100 2, mkFrame 60000 3, mkFrame 70000 4]).frame_cnt_recv = 3 ∧
    (pushAll freshStore
      [mkFrame 50000 1, mkFrame 100 2, mkFrame 60000 3, mkFrame 70000 4]).frame_cnt_recv ≠ 4 ∧
    (acquireN 4 (pushAll freshStore
      [mkFrame 50000 1, mkFrame 100 2, mkFrame 60000 3, mkFrame 70000 4])).1
      = [⟨some .buf_a, 50000⟩, ⟨some .buf_b, 60000⟩, ⟨none, 0⟩, ⟨none, 0⟩] :=
  ⟨by decide, by decide, by decide⟩

/-- C3, amended: pushing frames of 50000, 100, 60000 and 70000 bytes, in that
order and with no read in between, into a freshly started store stores two of
them (50000 bytes in slot A, 60000 bytes in slot B); the 100-byte frame
changes nothing, the 70000-byte frame only the counter; the received counter
is 3; the polls that follow return the 50000-byte frame, then the 60000-byte
frame, then nothing, so the 70000-byte frame is never returned. -/
theorem scenario_two_stored (buf_a buf_b d1 d2 d3 d4 : List Nat) (n : Nat) :
    frame_cb (frame_cb (initStore buf_a buf_b) (some ⟨some d1, 50000⟩)) (some ⟨some d2, 100⟩)
      = frame_cb (initStore buf_a buf_b) (some ⟨some d1, 50000⟩) ∧
    pushAll (initStore buf_a buf_b)
      [some ⟨some d1, 50000⟩, some ⟨some d2, 100⟩, some ⟨some d3, 60000⟩, some ⟨some d4, 70000⟩]
      = { mjpeg_buf_a := memcpy buf_a d1 50000, mjpeg_buf_b := memcpy buf_b d3 60000,
          frame_len_a := 50000, frame_len_b := 60000,
          frame_ready_a := true, frame_ready_b := true,
          use_buf_a := true, frame_cnt_recv := 3 } ∧
    (acquireN (n + 2) (pushAll (initStore buf_a buf_b)
      [some ⟨some d1, 50000⟩, some ⟨some d2, 100⟩, some ⟨some d3, 60000⟩,
        some ⟨some d4, 70000⟩])).1
      = ⟨some .buf_a, 50000⟩ :: ⟨some .buf_b, 60000⟩ :: List.replicate n ⟨none, 0⟩ := by
  have hcap : MJPEG_BUF_SIZE = 960000 := MJPEG_BUF_SIZE_eq
  have e : pushAll (initStore buf_a buf_b)
      [some ⟨some d1, 50000⟩, some ⟨some d2, 100⟩, some ⟨some d3, 60000⟩, some ⟨some d4, 70000⟩]
      = { mjpeg_buf_a := memcpy buf_a d1 50000, mjpeg_buf_b := memcpy buf_b d3 60000,
          frame_len_a := 50000, frame_len_b := 60000,
          frame_ready_a := true, frame_ready_b := true,
          use_buf_a := true, frame_cnt_recv := 3 } := by
    simp [pushAll, frame_cb, initStore, hcap]
  refine ⟨?_, e, ?_⟩
  · simp [frame_cb, initStore, hcap]
  · rw [e]
    simp only [acquireN]
    rw [acquireN_idle n _ (by simp [acquireReadable]) (by simp [acquireReadable])]
    simp [acquireReadable]

/-! ## C4, C5: frames outside the length range -/

/-- C4: a frame whose length is below 2000 or above `MJPEG_BUF_SIZE` (960000)
leaves both buffers, both lengths, both ready flags and the selector as they
were, in every store state; every later sequence of producer calls and polls
therefore returns what it would have returned had the frame not been pushed. -/
theorem bounds_rejection (s : FrameStore) (f : uvc_frame_t)
    (h : f.data_bytes < 2000 ∨ f.data_bytes > MJPEG_BUF_SIZE) :
    (frame_cb s (some f)).mjpeg_buf_a = s.mjpeg_buf_a ∧
    (frame_cb s (some f)).mjpeg_buf_b = s.mjpeg_buf_b ∧
    (frame_cb s (some f)).frame_len_a = s.frame_len_a ∧
    (frame_cb s (some f)).frame_len_b = s.frame_len_b ∧
    (frame_cb s (some f)).frame_ready_a = s.frame_ready_a ∧
    (frame_cb s (some f)).frame_ready_b = s.frame_ready_b ∧
    (frame_cb s (some f)).use_buf_a = s.use_buf_a ∧
    MJPEG_BUF_SIZE = 960000 ∧
    ∀ evs : List Event, runEvents (frame_cb s (some f)) evs = runEvents s evs := by
  rw [frame_cb_out_of_range s f h]
  exact ⟨rfl, rfl, rfl, rfl, rfl, rfl, rfl, MJPEG_BUF_SIZE_eq, fun _ => rfl⟩

/-- Witness of C4: a 1999-byte frame pushed into a store that holds a
2000-byte frame in slot A; the poll after one more stored frame returns the
2000-byte frame, as without the short frame. -/
theorem bounds_rejection_witness :
    ((1999 : Nat) < 2000 ∨ 1999 > MJPEG_BUF_SIZE) ∧
    (frame_cb (frame_cb freshStore (mkFrame 2000 1)) (mkFrame 1999 9)).frame_ready_b
      = (frame_cb freshStore (mkFrame 2000 1)).frame_ready_b ∧
    runEvents (frame_cb (frame_cb freshStore (mkFrame 2000 1)) (mkFrame 1999 9))
        [.push (mkFrame 2500 2), .poll]
      = runEvents (frame_cb freshStore (mkFrame 2000 1)) [.push (mkFrame 2500 2), .poll] :=
  ⟨by decide,
   (bounds_rejection (frame_cb freshStore (mkFrame 2000 1))
      ⟨some (List.replicate 1999 9), 1999⟩ (by decide)).2.2.2.2.2.1,
   (bounds_rejection (frame_cb freshStore (mkFrame 2000 1))
      ⟨some (List.replicate 1999 9), 1999⟩ (by decide)).2.2.2.2.2.2.2.2 _⟩

/-- C5, as stated, fails: a 100-byte frame and a 960001-byte frame pushed
into the fresh store are dropped and the received counter stays 0. -/
theorem dropped_counted_counterexample :
    freshStore.frame_cnt_recv = 0 ∧
    (frame_cb freshStore (mkFrame 100 7)).frame_cnt_recv = 0 ∧
    (frame_cb freshStore (mkFrame 960001 7)).frame_cnt_recv = 0 ∧
    (frame_cb freshStore (mkFrame 100 7)).frame_cnt_recv ≠ freshStore.frame_cnt_recv + 1 :=
  ⟨by decide, by decide, by decide, by decide⟩

/-- C5, amended: when `frame_cb` drops a frame because its length is below
2000 or above `MJPEG_BUF_SIZE`, the received counter `frame_cnt_recv` is left
unchanged. -/
theorem dropped_not_counted (s : FrameStore) (f : uvc_frame_t)
    (h : f.data_bytes < 2000 ∨ f.data_bytes > MJPEG_BUF_SIZE) :
    (frame_cb s (some f)).frame_cnt_recv = s.frame_cnt_recv := by
  rw [frame_cb_out_of_range s f h]

/-- Witness of C5 (amended): a 960001-byte frame after one counted frame. -/
theorem dropped_not_counted_witness :
    ((960001 : Nat) < 2000 ∨ 960001 > MJPEG_BUF_SIZE) ∧
    (frame_cb freshStore (mkFrame 2000 1)).frame_cnt_recv = 1 ∧
    (frame_cb (frame_cb freshStore (mkFrame 2000 1)) (mkFrame 960001 7)).frame_cnt_recv
      = (frame_cb freshStore (mkFrame 2000 1)).frame_cnt_recv :=
  ⟨by decide, by decide,
   dropped_not_counted (frame_cb freshStore (mkFrame 2000 1))
     ⟨some (List.replicate 960001 7), 960001⟩ (by decide)⟩

/-! ## C6: the producer write step -/

/-- C6, as stated, fails: after two stored frames and one poll, slot A is not
ready, slot B is ready and the selector designates slot B; a valid 2500-byte
frame pushed then is not copied anywhere: buffers, lengths, flags and selector
stay as they were. -/
theorem write_free_slot_counterexample :
    (acquireReadable (pushAll freshStore [mkFrame 2000 1, mkFrame 3000 2])).2.frame_ready_a
      = false ∧
    frame_valid (mkFrame 2500 3) = true ∧
    (frame_cb (acquireReadable (pushAll freshStore [mkFrame 2000 1, mkFrame 3000 2])).2
      (mkFrame 2500 3)).frame_ready_a = false ∧
    (frame_cb (acquireReadable (pushAll freshStore [mkFrame 2000 1, mkFrame 3000 2])).2
      (mkFrame 2500 3)).frame_len_a = 2000 ∧
    (frame_cb (acquireReadable (pushAll freshStore [mkFrame 2000 1, mkFrame 3000 2])).2
      (mkFrame 2500 3)).frame_len_b = 3000 ∧
    (frame_cb (acquireReadable (pushAll freshStore [mkFrame 2000 1, mkFrame 3000 2])).2
      (mkFrame 2500 3)).use_buf_a = false ∧
    (frame_cb (acquireReadable (pushAll freshStore [mkFrame 2000 1, mkFrame 3000 2])).2
      (mkFrame 2500 3)).mjpeg_buf_a
      = (acquireReadable (pushAll freshStore [mkFrame 2000 1, mkFrame 3000 2])).2.mjpeg_buf_a ∧
    (frame_cb (acquireReadable (pushAll freshStore [mkFrame 2000 1, mkFrame 3000 2])).2
      (mkFrame 2500 3)).mjpeg_buf_b
      = (acquireReadable (pushAll freshStore [mkFrame 2000 1, mkFrame 3000 2])).2.mjpeg_buf_b :=
  ⟨by decide, by decide, by decide, by decide, by decide, by decide, rfl, rfl⟩

/-- C6, amended: for every valid frame and every store state in which the slot
designated by the selector (slot A when `use_buf_a`, slot B otherwise) is not
marked ready, `frame_cb` copies the frame bytes into that slot, sets its
length to the frame length, marks it ready and flips the selector, and leaves
the other slot as it was. -/
theorem write_designated_slot (s : FrameStore) (f : uvc_frame_t) (d : List Nat)
    (hd : f.data = some d) (hlo : 2000 ≤ f.data_bytes) (hhi : f.data_bytes ≤ MJPEG_BUF_SIZE)
    (hfree : readyOf s (designated s) = false) :
    deref (frame_cb s (some f)) (designated s)
      = memcpy (deref s (designated s)) d f.data_bytes ∧
    lenOf (frame_cb s (some f)) (designated s) = f.data_bytes ∧
    readyOf (frame_cb s (some f)) (designated s) = true ∧
    (frame_cb s (some f)).use_buf_a = !s.use_buf_a ∧
    deref (frame_cb s (some f)) (designated s).other = deref s (designated s).other ∧
    lenOf (frame_cb s (some f)) (designated s).other = lenOf s (designated s).other ∧
    readyOf (frame_cb s (some f)) (designated s).other = readyOf s (designated s).other := by
  rw [frame_cb_in_range s f d hd hlo hhi]
  rcases s with ⟨a, b, la, lb, ra, rb, u, c⟩
  cases ra <;> cases rb <;> cases u <;>
    simp_all [storeFrame, designated, readyOf, lenOf, deref, BufPtr.other]

/-- Witness of C6 (amended): the second frame pushed into the fresh store goes
to slot B. -/
theorem write_designated_slot_witness :
    readyOf (frame_cb freshStore (mkFrame 2000 1))
      (designated (frame_cb freshStore (mkFrame 2000 1))) = false ∧
    designated (frame_cb freshStore (mkFrame 2000 1)) = .buf_b ∧
    lenOf (frame_cb (frame_cb freshStore (mkFrame 2000 1)) (mkFrame 3000 2))
      (designated (frame_cb freshStore (mkFrame 2000 1))) = 3000 :=
  ⟨by decide, by decide,
   (write_designated_slot (frame_cb freshStore (mkFrame 2000 1))
      ⟨some (List.replicate 3000 2), 3000⟩ (List.replicate 3000 2) rfl
      (by decide) (by decide) (by decide)).2.1⟩

/-! ## C7: the accepted length range -/

/-- C7: `MJPEG_BUF_SIZE = 800 * 600 * 2 = 960000`; the validation of
`frame_cb` lets a frame with non-null data through exactly when
`2000 ≤ length ≤ MJPEG_BUF_SIZE`, and a frame it does not let through leaves
the store as it is; from the freshly started store a frame of length `L` is
copied into a slot (slot A) and marked ready exactly when `L` is in that
range, so for `L = 2000` and `L = 960000` and not for `L = 1999` or
`L = 960001`. -/
theorem accepted_range_inclusive (buf_a buf_b d : List Nat) (L : Nat) :
    MJPEG_BUF_SIZE = 800 * 600 * 2 ∧ MJPEG_BUF_SIZE = 960000 ∧
    (frame_valid (some ⟨some d, L⟩) = true ↔ 2000 ≤ L ∧ L ≤ 960000) ∧
    (∀ (s : FrameStore) (frame : Option uvc_frame_t),
      frame_valid frame = false → frame_cb s frame = s) ∧
    ((frame_cb (initStore buf_a buf_b) (some ⟨some d, L⟩)).frame_ready_a = true ∨
      (frame_cb (initStore buf_a buf_b) (some ⟨some d, L⟩)).frame_ready_b = true
      ↔ 2000 ≤ L ∧ L ≤ 960000) ∧
    (2000 ≤ L ∧ L ≤ 960000 →
      frame_cb (initStore buf_a buf_b) (some ⟨some d, L⟩) =
        { mjpeg_buf_a := memcpy buf_a d L, mjpeg_buf_b := buf_b,
          frame_len_a := L, frame_len_b := 0,
          frame_ready_a := true, frame_ready_b := false,
          use_buf_a := false, frame_cnt_recv := 1 }) ∧
    (¬ (2000 ≤ L ∧ L ≤ 960000) →
      frame_cb (initStore buf_a buf_b) (some ⟨some d, L⟩) = initStore buf_a buf_b) ∧
    (frame_cb (initStore buf_a buf_b) (some ⟨some d, 2000⟩)).frame_ready_a = true ∧
    (frame_cb (initStore buf_a buf_b) (some ⟨some d, 960000⟩)).frame_ready_a = true ∧
    frame_cb (initStore buf_a buf_b) (some ⟨some d, 1999⟩) = initStore buf_a buf_b ∧
    frame_cb (initStore buf_a buf_b) (some ⟨some d, 960001⟩) = initStore buf_a buf_b := by
  have hcap : MJPEG_BUF_SIZE = 960000 := MJPEG_BUF_SIZE_eq
  have hin : ∀ n, 2000 ≤ n ∧ n ≤ 960000 →
      frame_cb (initStore buf_a buf_b) (some ⟨some d, n⟩) =
        { mjpeg_buf_a := memcpy buf_a d n, mjpeg_buf_b := buf_b,
          frame_len_a := n, frame_len_b := 0,
          frame_ready_a := true, frame_ready_b := false,
          use_buf_a := false, frame_cnt_recv := 1 } := by
    intro n hn
    rw [frame_cb_in_range _ ⟨some d, n⟩ d rfl hn.1 (by rw [hcap]; exact hn.2)]
    simp [storeFrame, initStore]
  have hout : ∀ n, ¬ (2000 ≤ n ∧ n ≤ 960000) →
      frame_cb (initStore buf_a buf_b) (some ⟨some d, n⟩) = initStore buf_a buf_b := by
    intro n hn
    exact frame_cb_out_of_range _ ⟨some d, n⟩ (by rw [hcap]; show n < 2000 ∨ n > 960000; omega)
  have hvalid : frame_valid (some ⟨some d, L⟩) = true ↔ 2000 ≤ L ∧ L ≤ 960000 := by
    simp only [frame_valid, hcap]
    by_cases h0 : L = 0
    · simp [h0]
    · by_cases h1 : L > 960000 ∨ L < 2000
      · simp only [h0, h1, if_true, if_false]
        constructor
        · intro h; exact absurd h (by decide)
        · intro h; omega
      · simp only [h0, h1, if_false]
        constructor
        · intro _; omega
        · intro _; trivial
  refine ⟨rfl, hcap, hvalid, ?_, ?_, hin L, hout L, ?_, ?_, hout 1999 (by omega),
    hout 960001 (by omega)⟩
  · intro s frame hv
    cases frame with
    | none => rfl
    | some f =>
      cases hd : f.data with
      | none => exact frame_cb_null_data s f hd
      | some d0 =>
        apply frame_cb_out_of_range
        simp only [frame_valid, hd] at hv
        by_cases h0 : f.data_bytes = 0
        · omega
        · by_cases h1 : f.data_bytes > MJPEG_BUF_SIZE ∨ f.data_bytes < 2000
          · omega
          · simp [h0, h1] at hv
  · by_cases h : 2000 ≤ L ∧ L ≤ 960000
    · rw [hin L h]; simp [h]
    · rw [hout L h]; simp [initStore, h]
  · rw [hin 2000 (by omega)]
  · rw [hin 960000 (by omega)]

/-! ## C8: bounded staleness -/

theorem readyCount_le_two (s : FrameStore) : readyCount s ≤ 2 := by
  unfold readyCount
  split <;> split <;> omega

theorem acquireN_count (n : Nat) :
    ∀ s : FrameStore,
      returnedCount (acquireN n s).1 + readyCount (acquireN n s).2 = readyCount s := by
  induction n with
  | zero => intro s; simp [acquireN, returnedCount]
  | succ n ih =>
    intro s
    have hstep : returnedCount [(acquireReadable s).1] + readyCount (acquireReadable s).2
        = readyCount s := by
      rcases s with ⟨a, b, la, lb, ra, rb, u, c⟩
      cases ra <;> cases rb <;> cases u <;>
        simp [acquireReadable, returnedCount, readyCount]
    have hcons : returnedCount ((acquireReadable s).1 :: (acquireN n (acquireReadable s).2).1)
        = returnedCount [(acquireReadable s).1]
          + returnedCount (acquireN n (acquireReadable s).2).1 := by
      unfold returnedCount
      by_cases hb : (acquireReadable s).1.frameBuffer.isSome = true
      · simp [List.filter_cons, hb]; omega
      · simp [List.filter_cons, hb]
    have := ih (acquireReadable s).2
    simp only [acquireN]
    rw [hcons]
    omega

/-- C8: after any sequence of producer calls with no read in between, any
number of acquire steps returns a frame at most twice: as many times as there
are ready slots, of which there are never more than two. -/
theorem bounded_staleness (s : FrameStore) (frames : List (Option uvc_frame_t)) (n : Nat) :
    returnedCount (acquireN n (pushAll s frames)).1 ≤ readyCount (pushAll s frames) ∧
    readyCount (pushAll s frames) ≤ 2 ∧
    returnedCount (acquireN n (pushAll s frames)).1 ≤ 2 := by
  have h1 := acquireN_count n (pushAll s frames)
  have h2 := readyCount_le_two (pushAll s frames)
  omega

/-! ## C9: polling an empty store -/

/-- C9: in every store state where neither ready flag is set, the acquire
step returns no frame (`frameBuffer` null, `frameLen` 0) and leaves both ready
flags, both lengths and the selector (indeed the whole store) unchanged. -/
theorem acquire_empty (s : FrameStore)
    (ha : s.frame_ready_a = false) (hb : s.frame_ready_b = false) :
    (acquireReadable s).1 = ⟨none, 0⟩ ∧
    exposed (acquireReadable s) = none ∧
    (acquireReadable s).2.frame_ready_a = s.frame_ready_a ∧
    (acquireReadable s).2.frame_ready_b = s.frame_ready_b ∧
    (acquireReadable s).2.frame_len_a = s.frame_len_a ∧
    (acquireReadable s).2.frame_len_b = s.frame_len_b ∧
    (acquireReadable s).2.use_buf_a = s.use_buf_a ∧
    (acquireReadable s).2 = s := by
  have h : acquireReadable s = (⟨none, 0⟩, s) := by
    simp [acquireReadable, ha, hb]
  rw [h]
  exact ⟨rfl, rfl, rfl, rfl, rfl, rfl, rfl, rfl⟩

/-- Witness of C9: the store after two stored frames and two polls has no
ready slot, and a third poll returns nothing. -/
theorem acquire_empty_witness :
    (acquireN 2 (pushAll freshStore [mkFrame 2000 1, mkFrame 3000 2])).2.frame_ready_a = false ∧
    (acquireN 2 (pushAll freshStore [mkFrame 2000 1, mkFrame 3000 2])).2.frame_ready_b = false ∧
    (acquireReadable (acquireN 2 (pushAll freshStore [mkFrame 2000 1, mkFrame 3000 2])).2).1
      = ⟨none, 0⟩ :=
  ⟨by decide, by decide,
   (acquire_empty (acquireN 2 (pushAll freshStore [mkFrame 2000 1, mkFrame 3000 2])).2
      (by decide) (by decide)).1⟩

/-! ## C10: admission with a full worker table -/

theorem findFreeSlot_full (tbl : List (Option Nat)) (hfull : ∀ e ∈ tbl, e ≠ none) :
    findFreeSlot tbl = none := by
  unfold findFreeSlot
  rw [List.find?_eq_none]
  intro i _ hi
  have h : tbl[i]? = some none := by simpa using hi
  exact hfull none (List.getElem?_mem h) rfl

theorem clientProcessorTask_run_full (pending : List Nat) :
    ∀ (n : Nat) (y : StreamSys), (∀ e ∈ y.streamTaskHandle, e ≠ none) →
      y.clientQueue = some pending → pending.length ≤ n →
      clientProcessorTask_run n y =
        { y with clientQueue := some [],
                 stopped := y.stopped ++ pending,
                 deleted := y.deleted ++ pending } := by
  induction pending with
  | nil =>
    intro n y _ hq _
    cases n with
    | zero => rcases y with ⟨_, _, _, _, _, _, _, _, _, _⟩; simp_all [clientProcessorTask_run]
    | succ n =>
      rcases y with ⟨_, _, _, _, _, _, _, _, _, _⟩
      simp_all [clientProcessorTask_run, clientProcessorTask_step]
  | cons c rest ih =>
    intro n y hfull hq hn
    cases n with
    | zero => simp at hn
    | succ n =>
      have hstep : clientProcessorTask_step y =
          some { y with clientQueue := some rest, stopped := y.stopped ++ [c],
                        deleted := y.deleted ++ [c] } := by
        simp only [clientProcessorTask_step, hq, findFreeSlot_full _ hfull]
      have key := ih n { y with clientQueue := some rest, stopped := y.stopped ++ [c],
                                 deleted := y.deleted ++ [c] } hfull rfl (by simpa using hn)
      simp only [clientProcessorTask_run, hstep]
      rw [key]
      simp

/-- C10: in a running system whose `MAX_CLIENTS = 3` worker table entries are
all non-null, a further stream request from a connected client is rejected:
once `handle_stream` has run and the dispatcher has worked through the queue,
the connection of that client is closed and its client object deleted, no
task was created and the worker table is what it was. -/
theorem admission_capacity (y : StreamSys) (q : List Nat) (c n : Nat)
    (hrun : y.streaming_started = true)
    (hq : y.clientQueue = some q)
    (hlen : y.streamTaskHandle.length = MAX_CLIENTS)
    (hfull : ∀ e ∈ y.streamTaskHandle, e ≠ none)
    (hn : q.length + 1 ≤ n) :
    MAX_CLIENTS = 3 ∧
    c ∈ (clientProcessorTask_run n (handle_stream y c true)).stopped ∧
    c ∈ (clientProcessorTask_run n (handle_stream y c true)).deleted ∧
    (clientProcessorTask_run n (handle_stream y c true)).spawned = y.spawned ∧
    (clientProcessorTask_run n (handle_stream y c true)).nextTask = y.nextTask ∧
    (clientProcessorTask_run n (handle_stream y c true)).streamTaskHandle
      = y.streamTaskHandle ∧
    (handle_stream y c true).streamTaskHandle = y.streamTaskHandle ∧
    (handle_stream y c true).spawned = y.spawned := by
  have hstart : startStream y = { y with uvcStarted := true } := by
    rcases y with ⟨u, st, _, _, _, _, _, _, _, _⟩
    cases u <;> simp_all [startStream]
  by_cases hlt : q.length < MAX_CLIENTS
  · have hh : handle_stream y c true =
        { y with uvcStarted := true, sent := y.sent ++ [(c, streamHeader)],
                 clientQueue := some (q ++ [c]) } := by
      simp [handle_stream, hstart, hq, hlt]
    have key := clientProcessorTask_run_full (q ++ [c]) n
      { y with uvcStarted := true, sent := y.sent ++ [(c, streamHeader)],
               clientQueue := some (q ++ [c]) } hfull rfl (by simpa using hn)
    rw [hh, key]
    simp [MAX_CLIENTS]
  · have hh : handle_stream y c true =
        { y with uvcStarted := true, sent := y.sent ++ [(c, streamHeader)],
                 stopped := y.stopped ++ [c], deleted := y.deleted ++ [c] } := by
      simp [handle_stream, hstart, hq, hlt]
    have key := clientProcessorTask_run_full q n
      { y with uvcStarted := true, sent := y.sent ++ [(c, streamHeader)],
               stopped := y.stopped ++ [c], deleted := y.deleted ++ [c] } hfull hq (by omega)
    rw [hh, key]
    simp [MAX_CLIENTS]

/-- Witness of C10: client 4 asks for the stream while workers 11, 12 and 13
fill the table. -/
theorem admission_capacity_witness :
    fullSys.streamTaskHandle.length = MAX_CLIENTS ∧
    (∀ e ∈ fullSys.streamTaskHandle, e ≠ none) ∧
    4 ∈ (clientProcessorTask_run 1 (handle_stream fullSys 4 true)).stopped ∧
    (clientProcessorTask_run 1 (handle_stream fullSys 4 true)).streamTaskHandle
      = fullSys.streamTaskHandle :=
  ⟨by decide, by decide,
   (admission_capacity fullSys [] 4 1 rfl rfl (by decide) (by decide) (by decide)).2.1,
   (admission_capacity fullSys [] 4 1 rfl rfl (by decide) (by decide) (by decide)).2.2.2.2.2.1⟩

/-! ## Helper lemmas on the streaming globals -/

theorem startStream_running (y : StreamSys) (hrun : y.streaming_started = true) :
    startStream y = { y with uvcStarted := true } := by
  rcases y with ⟨u, st, _, _, _, _, _, _, _, _⟩
  cases u <;> simp_all [startStream]

theorem handle_stream_running (y : StreamSys) (q : List Nat) (c : Nat)
    (hrun : y.streaming_started = true) (hq : y.clientQueue = some q) :
    handle_stream y c true =
      if q.length < MAX_CLIENTS then
        { y with uvcStarted := true, sent := y.sent ++ [(c, streamHeader)],
                 clientQueue := some (q ++ [c]) }
      else
        { y with uvcStarted := true, sent := y.sent ++ [(c, streamHeader)],
                 stopped := y.stopped ++ [c], deleted := y.deleted ++ [c] } := by
  by_cases hlt : q.length < MAX_CLIENTS <;>
    simp [handle_stream, startStream_running y hrun, hq, hlt]

theorem handle_stream_disconnected (y : StreamSys) (c : Nat) :
    handle_stream y c false = startStream y := by
  simp [handle_stream]

theorem length_eq_three {α : Type} (l : List α) (h : l.length = MAX_CLIENTS) :
    ∃ a b c, l = [a, b, c] := by
  match l, h with
  | [a, b, c], _ => exact ⟨a, b, c, rfl⟩

theorem findFreeSlot_spec (tbl : List (Option Nat)) (hlen : tbl.length = MAX_CLIENTS)
    (hfree : none ∈ tbl) :
    ∃ i, findFreeSlot tbl = some i ∧ i < MAX_CLIENTS ∧ tbl[i]? = some none ∧
      ∀ j, j < i → tbl[j]? ≠ some none := by
  obtain ⟨a, b, c, rfl⟩ := length_eq_three tbl hlen
  cases a with
  | none => exact ⟨0, rfl, by decide, rfl, by intro j hj; omega⟩
  | some a =>
    cases b with
    | none =>
      refine ⟨1, rfl, by decide, rfl, ?_⟩
      intro j hj
      have : j = 0 := by omega
      subst this; simp
    | some b =>
      cases c with
      | none =>
        refine ⟨2, rfl, by decide, rfl, ?_⟩
        intro j hj
        have : j = 0 ∨ j = 1 := by omega
        rcases this with rfl | rfl <;> simp
      | some c => simp at hfree

theorem clearOwnSlot_length (tbl : List (Option Nat)) (current : Nat) :
    (clearOwnSlot tbl current).length = tbl.length := by
  unfold clearOwnSlot
  split <;> simp

theorem step_dequeue (y : StreamSys) (c : Nat) (rest : List Nat)
    (hq : y.clientQueue = some (c :: rest)) :
    clientProcessorTask_step y =
      match findFreeSlot y.streamTaskHandle with
      | some taskSlot =>
        some { y with
          clientQueue := some rest,
          streamTaskHandle := y.streamTaskHandle.set taskSlot (some y.nextTask),
          spawned := y.spawned ++ [(taskSlot, c)],
          nextTask := y.nextTask + 1 }
      | none =>
        some { y with
          clientQueue := some rest,
          stopped := y.stopped ++ [c],
          deleted := y.deleted ++ [c] } := by
  simp only [clientProcessorTask_step, hq]

theorem step_some (y y1 : StreamSys) (h : clientProcessorTask_step y = some y1) :
    ∃ c rest, y.clientQueue = some (c :: rest) := by
  cases hq : y.clientQueue with
  | none => simp [clientProcessorTask_step, hq] at h
  | some q =>
    cases q with
    | nil => simp [clientProcessorTask_step, hq] at h
    | cons c rest => exact ⟨c, rest, rfl⟩

theorem sys_inv (y : StreamSys) (h : SysReachable y) :
    y.streaming_started = true ∧ y.streamTaskHandle.length = MAX_CLIENTS ∧
    ∃ q, y.clientQueue = some q ∧ q.length ≤ MAX_CLIENTS := by
  induction h with
  | start => exact ⟨rfl, rfl, [], rfl, by decide⟩
  | @request y c connected _ ih =>
    obtain ⟨hrun, hlen, q, hq, hcap⟩ := ih
    cases connected with
    | false =>
      rw [handle_stream_disconnected, startStream_running y hrun]
      exact ⟨hrun, hlen, q, hq, hcap⟩
    | true =>
      rw [handle_stream_running y q c hrun hq]
      by_cases hlt : q.length < MAX_CLIENTS
      · rw [if_pos hlt]
        exact ⟨hrun, hlen, q ++ [c], rfl, by simp; omega⟩
      · rw [if_neg hlt]
        exact ⟨hrun, hlen, q, hq, hcap⟩
  | @dispatch y y1 _ hstep ih =>
    obtain ⟨hrun, hlen, q, hq, hcap⟩ := ih
    obtain ⟨c, rest, hq1⟩ := step_some y y1 hstep
    rw [step_dequeue y c rest hq1] at hstep
    have hrest : rest.length ≤ MAX_CLIENTS := by
      rw [hq1] at hq
      cases hq
      simp at hcap
      omega
    cases hf : findFreeSlot y.streamTaskHandle with
    | none =>
      rw [hf] at hstep
      cases hstep
      exact ⟨hrun, hlen, rest, rfl, hrest⟩
    | some i =>
      rw [hf] at hstep
      cases hstep
      exact ⟨hrun, by simpa using hlen, rest, rfl, hrest⟩
  | @exit y current streamClient _ _ ih =>
    obtain ⟨hrun, hlen, q, hq, hcap⟩ := ih
    exact ⟨hrun, by simp [stream_task_exit, clearOwnSlot_length, hlen], q, hq, hcap⟩

theorem reachable_run (n : Nat) :
    ∀ y : StreamSys, SysReachable y → SysReachable (clientProcessorTask_run n y) := by
  induction n with
  | zero => intro y h; exact h
  | succ n ih =>
    intro y h
    unfold clientProcessorTask_run
    cases hs : clientProcessorTask_step y with
    | none => exact h
    | some y1 => exact ih y1 (SysReachable.dispatch h hs)

theorem step_keeps (y y1 : StreamSys) (h : clientProcessorTask_step y = some y1) :
    y1.sent = y.sent ∧ ∀ c ∈ y.stopped, c ∈ y1.stopped := by
  obtain ⟨c, rest, hq⟩ := step_some y y1 h
  rw [step_dequeue y c rest hq] at h
  cases hf : findFreeSlot y.streamTaskHandle with
  | none =>
    rw [hf] at h
    cases h
    exact ⟨rfl, fun c hc => List.mem_append_left _ hc⟩
  | some i =>
    rw [hf] at h
    cases h
    exact ⟨rfl, fun c hc => hc⟩

theorem run_keeps (n : Nat) :
    ∀ y : StreamSys, (clientProcessorTask_run n y).sent = y.sent ∧
      ∀ c ∈ y.stopped, c ∈ (clientProcessorTask_run n y).stopped := by
  induction n with
  | zero => intro y; exact ⟨rfl, fun _ h => h⟩
  | succ n ih =>
    intro y
    unfold clientProcessorTask_run
    cases hs : clientProcessorTask_step y with
    | none => exact ⟨rfl, fun _ h => h⟩
    | some y1 =>
      obtain ⟨h1, h2⟩ := step_keeps y y1 hs
      obtain ⟨h3, h4⟩ := ih y1
      exact ⟨by simp only [h3, h1], fun c hc => h4 c (h2 c hc)⟩

/-! ## C11: enqueue backpressure -/

/-- C11: in a running system whose queue already holds `MAX_CLIENTS = 3`
pending requests, the enqueue attempt of `handle_stream` fails at once: the
connection of the request is closed, its client object deleted and the queue
contents are unchanged; when the queue holds fewer than 3 entries the request
is appended and nothing is closed. -/
theorem enqueue_backpressure (y : StreamSys) (q : List Nat) (c : Nat)
    (hrun : y.streaming_started = true) (hq : y.clientQueue = some q) :
    MAX_CLIENTS = 3 ∧
    (q.length = MAX_CLIENTS →
      (handle_stream y c true).clientQueue = some q ∧
      (handle_stream y c true).stopped = y.stopped ++ [c] ∧
      (handle_stream y c true).deleted = y.deleted ++ [c]) ∧
    (q.length < MAX_CLIENTS →
      (handle_stream y c true).clientQueue = some (q ++ [c]) ∧
      (handle_stream y c true).stopped = y.stopped ∧
      (handle_stream y c true).deleted = y.deleted) := by
  rw [handle_stream_running y q c hrun hq]
  refine ⟨rfl, ?_, ?_⟩
  · intro hfull
    rw [if_neg (by omega)]
    exact ⟨hq, rfl, rfl⟩
  · intro hlt
    rw [if_pos hlt]
    exact ⟨rfl, rfl, rfl⟩

/-- Witness of C11: a fourth request while three wait in the queue is closed
and the queue keeps its three entries. -/
theorem enqueue_backpressure_witness :
    pending3.streaming_started = true ∧ pending3.clientQueue = some [1, 2, 3] ∧
    (handle_stream pending3 4 true).clientQueue = some [1, 2, 3] ∧
    (handle_stream pending3 4 true).stopped = pending3.stopped ++ [4] ∧
    (handle_stream pending3 4 true).deleted = pending3.deleted ++ [4] :=
  ⟨by decide, by decide,
   (enqueue_backpressure pending3 [1, 2, 3] 4 (by decide) (by decide)).2.1 (by decide)⟩

/-! ## C12: is a free table entry guaranteed at dequeue time -/

/-- C12, as stated, fails: after clients 1, 2 and 3 were given workers and
client 4 asked for the stream, the state is reachable, the queue holds client
4, no table entry is null, and the dispatcher iteration that dequeues client 4
takes the rejection branch: it closes and deletes client 4 and creates no
task. -/
theorem free_slot_counterexample :
    SysReachable (handle_stream admitted3 4 true) ∧
    (handle_stream admitted3 4 true).clientQueue = some [4] ∧
    (handle_stream admitted3 4 true).streamTaskHandle = [some 2, some 3, some 4] ∧
    findFreeSlot (handle_stream admitted3 4 true).streamTaskHandle = none ∧
    (clientProcessorTask_step (handle_stream admitted3 4 true)).map (fun y => y.stopped)
      = some [4] ∧
    (clientProcessorTask_step (handle_stream admitted3 4 true)).map (fun y => y.spawned)
      = some [(0, 1), (1, 2), (2, 3)] :=
  ⟨SysReachable.request 4 true
      (reachable_run 3 _
        (SysReachable.request 3 true
          (SysReachable.request 2 true (SysReachable.request 1 true SysReachable.start)))),
   by decide, by decide, by decide, by decide, by decide⟩

/-- C12, amended: in every state reachable from the first `startStream` by
stream requests, dispatcher iterations and worker exits, the worker table has
`MAX_CLIENTS` entries and the queue holds at most `MAX_CLIENTS` requests; when
the dispatcher dequeues a request and some table entry is null, it creates a
worker in the first null entry; when no entry is null it takes the rejection
branch, closing and deleting the request. -/
theorem dispatch_first_free_or_reject (y : StreamSys) (c : Nat) (rest : List Nat)
    (hr : SysReachable y) (hq : y.clientQueue = some (c :: rest)) :
    y.streamTaskHandle.length = MAX_CLIENTS ∧
    (c :: rest).length ≤ MAX_CLIENTS ∧
    (none ∈ y.streamTaskHandle →
      ∃ i, i < MAX_CLIENTS ∧ y.streamTaskHandle[i]? = some none ∧
        (∀ j, j < i → y.streamTaskHandle[j]? ≠ some none) ∧
        clientProcessorTask_step y = some { y with
          clientQueue := some rest,
          streamTaskHandle := y.streamTaskHandle.set i (some y.nextTask),
          spawned := y.spawned ++ [(i, c)],
          nextTask := y.nextTask + 1 }) ∧
    ((∀ e ∈ y.streamTaskHandle, e ≠ none) →
      clientProcessorTask_step y = some { y with
        clientQueue := some rest,
        stopped := y.stopped ++ [c],
        deleted := y.deleted ++ [c] }) := by
  obtain ⟨_, hlen, q, hq1, hcap⟩ := sys_inv y hr
  rw [hq] at hq1
  cases hq1
  refine ⟨hlen, hcap, ?_, ?_⟩
  · intro hfree
    obtain ⟨i, hi, hlt, hnull, hfirst⟩ := findFreeSlot_spec _ hlen hfree
    exact ⟨i, hlt, hnull, hfirst, by rw [step_dequeue y c rest hq, hi]⟩
  · intro hfull
    rw [step_dequeue y c rest hq, findFreeSlot_full _ hfull]

/-- Witness of C12 (amended): with client 4 queued behind three workers the
dispatcher rejects it; the table has three entries. -/
theorem dispatch_first_free_or_reject_witness :
    SysReachable (handle_stream admitted3 4 true) ∧
    (handle_stream admitted3 4 true).clientQueue = some [4] ∧
    (handle_stream admitted3 4 true).streamTaskHandle.length = MAX_CLIENTS :=
  ⟨SysReachable.request 4 true
      (reachable_run 3 _
        (SysReachable.request 3 true
          (SysReachable.request 2 true (SysReachable.request 1 true SysReachable.start)))),
   by decide,
   (dispatch_first_free_or_reject (handle_stream admitted3 4 true) 4 []
      (SysReachable.request 4 true
        (reachable_run 3 _
          (SysReachable.request 3 true
            (SysReachable.request 2 true (SysReachable.request 1 true SysReachable.start)))))
      (by decide)).1⟩

/-! ## C13: where the fourth request is rejected -/

/-- C13, as stated, fails: with clients 1, 2 and 3 admitted (workers 2, 3, 4
in the table, queue empty) `handle_stream` for client 4 closes nothing: it
puts client 4 in the queue; the connection is closed by the dispatcher
iteration that follows. The table holds its three handles throughout. -/
theorem admission_step_counterexample :
    admitted3.streamTaskHandle = [some 2, some 3, some 4] ∧
    admitted3.clientQueue = some [] ∧
    (handle_stream admitted3 4 true).stopped = [] ∧
    (handle_stream admitted3 4 true).deleted = [] ∧
    (handle_stream admitted3 4 true).clientQueue = some [4] ∧
    (handle_stream admitted3 4 true).streamTaskHandle = [some 2, some 3, some 4] ∧
    (clientProcessorTask_run 1 (handle_stream admitted3 4 true)).stopped = [4] ∧
    (clientProcessorTask_run 1 (handle_stream admitted3 4 true)).streamTaskHandle
      = [some 2, some 3, some 4] :=
  ⟨by decide, by decide, by decide, by decide, by decide, by decide, by decide, by decide⟩

/-- C13, amended: after 3 clients have been admitted (no table entry null)
and while the queue has room, `handle_stream` does not close the connection of
a 4th stream request: it writes the response head and puts the request in the
queue; the connection is closed and the client object deleted by the
dispatcher (`clientProcessorTask`) once it has worked through the queue, and
the worker table keeps its 3 entries unchanged. -/
theorem rejection_by_dispatcher (y : StreamSys) (q : List Nat) (c : Nat)
    (hrun : y.streaming_started = true) (hq : y.clientQueue = some q)
    (hroom : q.length < MAX_CLIENTS)
    (hlen : y.streamTaskHandle.length = MAX_CLIENTS)
    (hfull : ∀ e ∈ y.streamTaskHandle, e ≠ none) :
    (handle_stream y c true).stopped = y.stopped ∧
    (handle_stream y c true).deleted = y.deleted ∧
    (handle_stream y c true).clientQueue = some (q ++ [c]) ∧
    (handle_stream y c true).sent = y.sent ++ [(c, streamHeader)] ∧
    (clientProcessorTask_run (q.length + 1) (handle_stream y c true)).stopped
      = y.stopped ++ (q ++ [c]) ∧
    (clientProcessorTask_run (q.length + 1) (handle_stream y c true)).deleted
      = y.deleted ++ (q ++ [c]) ∧
    (clientProcessorTask_run (q.length + 1) (handle_stream y c true)).streamTaskHandle
      = y.streamTaskHandle ∧
    (clientProcessorTask_run (q.length + 1) (handle_stream y c true)).streamTaskHandle.length
      = 3 := by
  have hh := handle_stream_running y q c hrun hq
  rw [if_pos hroom] at hh
  have key := clientProcessorTask_run_full (q ++ [c]) (q.length + 1)
    { y with uvcStarted := true, sent := y.sent ++ [(c, streamHeader)],
             clientQueue := some (q ++ [c]) } hfull rfl (by simp)
  rw [hh, key]
  exact ⟨rfl, rfl, rfl, rfl, rfl, rfl, rfl, hlen⟩

/-- Witness of C13 (amended): client 4 after three admitted clients. -/
theorem rejection_by_dispatcher_witness :
    admitted3.streaming_started = true ∧ admitted3.clientQueue = some [] ∧
    admitted3.streamTaskHandle.length = MAX_CLIENTS ∧
    (∀ e ∈ admitted3.streamTaskHandle, e ≠ none) ∧
    (handle_stream admitted3 4 true).stopped = admitted3.stopped ∧
    (clientProcessorTask_run (([] : List Nat).length + 1) (handle_stream admitted3 4 true)).stopped
      = admitted3.stopped ++ ([] ++ [4]) :=
  ⟨by decide, by decide, by decide, by decide,
   (rejection_by_dispatcher admitted3 [] 4 (by decide) (by decide) (by decide) (by decide)
      (by decide)).1,
   (rejection_by_dispatcher admitted3 [] 4 (by decide) (by decide) (by decide) (by decide)
      (by decide)).2.2.2.2.1⟩

/-! ## C14: what has been written when a request is rejected -/

/-- C14, as stated, fails: client 4 asks for the stream while three requests
wait in the queue; `handle_stream` closes its connection, and by then the
response head, which begins with the status line `HTTP/1.1 200 OK`, has been
written to it. -/
theorem no_response_counterexample :
    pending3.clientQueue = some [1, 2, 3] ∧
    (handle_stream pending3 4 true).stopped = [4] ∧
    (handle_stream pending3 4 true).sent = pending3.sent ++ [(4, streamHeader)] ∧
    streamHeader.toList.take 17 = "HTTP/1.1 200 OK\r\n".toList :=
  ⟨by decide, by decide, rfl, by decide⟩

/-- C14, amended: for every stream request of a connected client that is
rejected because capacity is reached, by `handle_stream` (queue full) or by
the dispatcher (no null table entry), the response head (status line
`HTTP/1.1 200 OK` and the headers) has been written to the connection by
`handle_stream` before the connection is closed, and nothing else is written
to it. -/
theorem head_written_on_rejection (y : StreamSys) (q : List Nat) (c n : Nat)
    (hrun : y.streaming_started = true) (hq : y.clientQueue = some q)
    (hrej : q.length = MAX_CLIENTS ∨ ∀ e ∈ y.streamTaskHandle, e ≠ none)
    (hn : q.length + 1 ≤ n) :
    (handle_stream y c true).sent = y.sent ++ [(c, streamHeader)] ∧
    (clientProcessorTask_run n (handle_stream y c true)).sent
      = y.sent ++ [(c, streamHeader)] ∧
    c ∈ (clientProcessorTask_run n (handle_stream y c true)).stopped := by
  have hsent : (handle_stream y c true).sent = y.sent ++ [(c, streamHeader)] := by
    rw [handle_stream_running y q c hrun hq]
    split <;> rfl
  obtain ⟨hk1, hk2⟩ := run_keeps n (handle_stream y c true)
  refine ⟨hsent, by rw [hk1, hsent], ?_⟩
  by_cases hlt : q.length < MAX_CLIENTS
  · have hfull : ∀ e ∈ y.streamTaskHandle, e ≠ none := by
      rcases hrej with h | h
      · omega
      · exact h
    have hh := handle_stream_running y q c hrun hq
    rw [if_pos hlt] at hh
    have key := clientProcessorTask_run_full (q ++ [c]) n
      { y with uvcStarted := true, sent := y.sent ++ [(c, streamHeader)],
               clientQueue := some (q ++ [c]) } hfull rfl (by simpa using hn)
    rw [hh, key]
    simp
  · apply hk2
    rw [handle_stream_running y q c hrun hq, if_neg hlt]
    simp

/-- Witness of C14 (amended): client 4 behind three queued requests. -/
theorem head_written_on_rejection_witness :
    pending3.streaming_started = true ∧ pending3.clientQueue = some [1, 2, 3] ∧
    (handle_stream pending3 4 true).sent = pending3.sent ++ [(4, streamHeader)] ∧
    4 ∈ (clientProcessorTask_run 4 (handle_stream pending3 4 true)).stopped :=
  ⟨by decide, by decide,
   (head_written_on_rejection pending3 [1, 2, 3] 4 4 (by decide) (by decide)
      (Or.inl (by decide)) (by decide)).1,
   (head_written_on_rejection pending3 [1, 2, 3] 4 4 (by decide) (by decide)
      (Or.inl (by decide)) (by decide)).2.2⟩

/-! ## C15: the multipart part -/

theorem decimalValue_snoc (bytes : List Nat) (b : Nat) :
    decimalValue (bytes ++ [b]) = 10 * decimalValue bytes + (b - 48) := by
  simp [decimalValue, List.foldl_append]

theorem decimalDigits_value (fuel : Nat) :
    ∀ v, v < fuel → decimalValue ((decimalDigits fuel v).map (fun d => 48 + d)) = v := by
  induction fuel with
  | zero => intro v hv; omega
  | succ fuel ih =>
    intro v hv
    unfold decimalDigits
    by_cases h0 : v / 10 = 0
    · rw [if_pos h0]
      simp [decimalValue]
      omega
    · rw [if_neg h0, List.map_append, List.map_singleton, decimalValue_snoc,
        ih (v / 10) (by omega)]
      omega

theorem decimalDigits_lt (fuel : Nat) :
    ∀ v, ∀ d ∈ decimalDigits fuel v, d < 10 := by
  induction fuel with
  | zero => intro v d hd; simp [decimalDigits] at hd
  | succ fuel ih =>
    intro v d hd
    unfold decimalDigits at hd
    by_cases h0 : v / 10 = 0
    · rw [if_pos h0] at hd
      simp at hd
      omega
    · rw [if_neg h0] at hd
      rcases List.mem_append.1 hd with h | h
      · exact ih _ d h
      · simp at h
        omega

theorem decimalDigits_head (fuel : Nat) :
    ∀ v, 0 < v → v < fuel → ∃ d, (decimalDigits fuel v).head? = some d ∧ d ≠ 0 := by
  induction fuel with
  | zero => intro v _ hv; omega
  | succ fuel ih =>
    intro v hpos hv
    unfold decimalDigits
    by_cases h0 : v / 10 = 0
    · rw [if_pos h0]
      exact ⟨v % 10, rfl, by omega⟩
    · rw [if_neg h0]
      obtain ⟨d, hd, hne⟩ := ih (v / 10) (by omega) (by omega)
      refine ⟨d, ?_, hne⟩
      cases hl : decimalDigits fuel (v / 10) with
      | nil => rw [hl] at hd; simp at hd
      | cons a t => rw [hl] at hd; simpa using hd

/-- C15: for every acquired frame of `N > 0` bytes, `N` being the stored
length of the returned slot, the bytes the worker writes to the socket for it
are exactly `--frame\r\n`, `Content-Type: image/jpeg\r\n`, `Content-Length: `,
the decimal digits of `N`, `\r\n\r\n`, the first `N` bytes of the slot and
`\r\n`; the digits are ASCII digits that read as `N` in base 10 and do not
start with a zero. -/
theorem multipart_part_format (s : FrameStore) (p : BufPtr)
    (hp : (acquireReadable s).1.frameBuffer = some p) (hN : 0 < lenOf s p) :
    (acquireReadable s).1.frameLen = lenOf s p ∧
    (stream_task_part s).1 =
      print "--frame\r\n" ++ print "Content-Type: image/jpeg\r\n" ++
      print "Content-Length: " ++ String_of_size (lenOf s p) ++ print "\r\n\r\n" ++
      (deref s p).take (lenOf s p) ++ print "\r\n" ∧
    (stream_task_part s).2 = (acquireReadable s).2 ∧
    decimalValue (String_of_size (lenOf s p)) = lenOf s p ∧
    (∀ b ∈ String_of_size (lenOf s p), 48 ≤ b ∧ b ≤ 57) ∧
    (String_of_size (lenOf s p)).head? ≠ some 48 ∧
    print "\r\n" = [13, 10] := by
  have hlen : (acquireReadable s).1.frameLen = lenOf s p ∧
      deref (acquireReadable s).2 p = deref s p := by
    rcases s with ⟨a, b, la, lb, ra, rb, u, c⟩
    cases p <;> cases ra <;> cases rb <;> cases u <;>
      simp_all [acquireReadable, lenOf, deref]
  obtain ⟨hl, hb⟩ := hlen
  refine ⟨hl, ?_, ?_, ?_, ?_, ?_, by decide⟩
  · simp only [stream_task_part, hp, hl, hb, if_pos hN, List.append_assoc]
  · simp only [stream_task_part, hp, hl, if_pos hN]
  · exact decimalDigits_value _ _ (Nat.lt_succ_self _)
  · intro b hb
    unfold String_of_size at hb
    obtain ⟨d, hd, rfl⟩ := List.mem_map.1 hb
    have := decimalDigits_lt _ _ d hd
    omega
  · obtain ⟨d, hd, hne⟩ := decimalDigits_head (lenOf s p + 1) (lenOf s p) hN (Nat.lt_succ_self _)
    unfold String_of_size
    rw [List.head?_map, hd]
    simp
    omega

/-- Witness of C15: the part written for the 2000-byte frame that the poll
returns after two frames were stored begins with the boundary line and
announces `Content-Length: 2000`. -/
theorem multipart_part_format_witness :
    (acquireReadable (pushAll freshStore [mkFrame 2000 1, mkFrame 3000 2])).1.frameBuffer
      = some .buf_a ∧
    lenOf (pushAll freshStore [mkFrame 2000 1, mkFrame 3000 2]) .buf_a = 2000 ∧
    String_of_size 2000 = [50, 48, 48, 48] ∧
    decimalValue (String_of_size
      (lenOf (pushAll freshStore [mkFrame 2000 1, mkFrame 3000 2]) .buf_a))
      = lenOf (pushAll freshStore [mkFrame 2000 1, mkFrame 3000 2]) .buf_a :=
  ⟨by decide, by decide, by decide,
   (multipart_part_format (pushAll freshStore [mkFrame 2000 1, mkFrame 3000 2]) .buf_a
      (by decide) (by decide)).2.2.2.1⟩

/-! ## C16-C20: lifecycle -/

theorem drainQueue_eq (q : List Nat) :
    ∀ y : StreamSys, drainQueue q y =
      { y with stopped := y.stopped ++ q, deleted := y.deleted ++ q } := by
  induction q with
  | nil => intro y; simp [drainQueue]
  | cons c rest ih => intro y; simp [drainQueue, ih]

theorem killWorkers_three (a b c : Option Nat) (killed : List Nat) :
    killWorkers [a, b, c] killed =
      ([none, none, none], killed ++ ([a, b, c].filterMap id)) := by
  cases a <;> cases b <;> cases c <;>
    simp [killWorkers, MAX_CLIENTS, List.range_succ, List.foldl]

theorem stopStream_running (n : Node) (a b c : Option Nat)
    (hrun : n.sys.streaming_started = true)
    (htbl : n.sys.streamTaskHandle = [a, b, c]) :
    stopStream n =
      { store := stopStream_frames n.store,
        sys := { n.sys with
          uvcStarted := if n.uvc = true then false else n.sys.uvcStarted,
          streamTaskHandle := [none, none, none],
          clientProcessorHandle := none,
          clientQueue := none,
          stopped := n.sys.stopped ++ n.sys.clientQueue.getD [],
          deleted := n.sys.deleted ++ n.sys.clientQueue.getD [],
          streaming_started := false },
        uvc := n.uvc,
        killed := n.killed ++ [a, b, c].filterMap id ++ n.sys.clientProcessorHandle.toList } := by
  rcases n with ⟨st, ⟨u, run, cp, cq, tbl, nt, sp, dl, spw, snt⟩, uvc, k⟩
  simp only at hrun htbl
  subst hrun htbl
  cases u <;> cases uvc <;> cases cp <;> cases cq <;>
    simp [stopStream, killWorkers_three, drainQueue_eq]

/-- C17: `stopStream` on a running system (camera object present, worker
table of `MAX_CLIENTS` entries) stops the camera driver, passes every worker
handle and the dispatcher handle to `vTaskDelete` and sets every table entry
and the dispatcher handle to null, closes and deletes every client still in
the queue, sets `clientQueue` to null, clears both ready flags (and selects
slot A), and leaves the system stopped. -/
theorem stop_post_state (n : Node)
    (hrun : n.sys.streaming_started = true) (huvc : n.uvc = true)
    (hlen : n.sys.streamTaskHandle.length = MAX_CLIENTS) :
    (stopStream n).sys.uvcStarted = false ∧
    (∀ e ∈ (stopStream n).sys.streamTaskHandle, e = none) ∧
    (stopStream n).sys.streamTaskHandle.length = MAX_CLIENTS ∧
    (stopStream n).sys.clientProcessorHandle = none ∧
    (∀ h, some h ∈ n.sys.streamTaskHandle → h ∈ (stopStream n).killed) ∧
    (∀ h, n.sys.clientProcessorHandle = some h → h ∈ (stopStream n).killed) ∧
    (stopStream n).sys.stopped = n.sys.stopped ++ n.sys.clientQueue.getD [] ∧
    (stopStream n).sys.deleted = n.sys.deleted ++ n.sys.clientQueue.getD [] ∧
    (stopStream n).sys.clientQueue = none ∧
    (stopStream n).store.frame_ready_a = false ∧
    (stopStream n).store.frame_ready_b = false ∧
    (stopStream n).store.use_buf_a = true ∧
    (stopStream n).sys.streaming_started = false := by
  obtain ⟨a, b, c, htbl⟩ := length_eq_three _ hlen
  rw [stopStream_running n a b c hrun htbl]
  refine ⟨by simp [huvc], by simp, rfl, rfl, ?_, ?_, rfl, rfl, rfl, rfl, rfl, rfl, rfl⟩
  · intro h hh
    rw [htbl] at hh
    have : h ∈ [a, b, c].filterMap id := by
      rw [List.mem_filterMap]
      exact ⟨some h, hh, rfl⟩
    simp only [List.mem_append]
    exact Or.inl (Or.inr this)
  · intro h hh
    simp only [List.mem_append, hh]
    exact Or.inr (by simp)

/-- Witness of C17: stopping the system in which clients 1, 2, 3 have workers
and client 4 waits in the queue closes client 4 and empties the table. -/
theorem stop_post_state_witness :
    (handle_stream admitted3 4 true).streaming_started = true ∧
    (handle_stream admitted3 4 true).streamTaskHandle.length = MAX_CLIENTS ∧
    (stopStream ⟨freshStore, handle_stream admitted3 4 true, true, []⟩).sys.stopped
      = (handle_stream admitted3 4 true).stopped
        ++ (handle_stream admitted3 4 true).clientQueue.getD [] ∧
    (stopStream ⟨freshStore, handle_stream admitted3 4 true, true, []⟩).sys.clientQueue
      = none :=
  ⟨by decide, by decide,
   (stop_post_state ⟨freshStore, handle_stream admitted3 4 true, true, []⟩
      (by decide) rfl (by decide)).2.2.2.2.2.2.1,
   (stop_post_state ⟨freshStore, handle_stream admitted3 4 true, true, []⟩
      (by decide) rfl (by decide)).2.2.2.2.2.2.2.2.1⟩

theorem startStream_stopped_fields (y : StreamSys) (h : y.streaming_started = false) :
    (startStream y).streamTaskHandle = [none, none, none] ∧
    (startStream y).clientQueue = some [] ∧
    (startStream y).streaming_started = true ∧
    (startStream y).uvcStarted = true := by
  rcases y with ⟨u, st, _, _, _, _, _, _, _, _⟩
  cases u <;> simp_all [startStream, MAX_CLIENTS]

/-- C18, as stated, fails: a running node that stored one 2000-byte frame is
stopped and started again; slot A keeps the stored length 2000 and its buffer
keeps the frame, while the freshly started node has length 0. -/
theorem clean_restart_counterexample :
    (frame_cb freshStore (mkFrame 2000 1)).frame_len_a = 2000 ∧
    ((stopStream ⟨frame_cb freshStore (mkFrame 2000 1), admitted3, true, []⟩).startStream).store.frame_len_a
      = 2000 ∧
    ((initNode (List.replicate 960000 0) (List.replicate 960000 0)).startStream).store.frame_len_a
      = 0 ∧
    ((stopStream ⟨frame_cb freshStore (mkFrame 2000 1), admitted3, true, []⟩).startStream).store.mjpeg_buf_a
      = (frame_cb freshStore (mkFrame 2000 1)).mjpeg_buf_a :=
  ⟨by decide, by decide, by decide, rfl⟩

/-- C18, amended: from any running state, `stopStream` followed by
`startStream` yields a state that agrees with a freshly initialised and
started node in both ready flags (clear), the selector (slot A), the worker
table (all null) and the queue (empty); the slot lengths, the buffer contents
and the received counter are those from before the stop. -/
theorem restart_flags_table_queue (n : Node) (buf_a buf_b : List Nat)
    (hrun : n.sys.streaming_started = true)
    (hlen : n.sys.streamTaskHandle.length = MAX_CLIENTS) :
    (stopStream n).startStream.store.frame_ready_a
      = (initNode buf_a buf_b).startStream.store.frame_ready_a ∧
    (stopStream n).startStream.store.frame_ready_b
      = (initNode buf_a buf_b).startStream.store.frame_ready_b ∧
    (stopStream n).startStream.store.use_buf_a
      = (initNode buf_a buf_b).startStream.store.use_buf_a ∧
    (stopStream n).startStream.sys.streamTaskHandle
      = (initNode buf_a buf_b).startStream.sys.streamTaskHandle ∧
    (stopStream n).startStream.sys.clientQueue
      = (initNode buf_a buf_b).startStream.sys.clientQueue ∧
    (stopStream n).startStream.sys.streaming_started
      = (initNode buf_a buf_b).startStream.sys.streaming_started ∧
    (stopStream n).startStream.sys.uvcStarted
      = (initNode buf_a buf_b).startStream.sys.uvcStarted ∧
    (stopStream n).startStream.sys.streamTaskHandle = [none, none, none] ∧
    (stopStream n).startStream.sys.clientQueue = some [] ∧
    (stopStream n).startStream.store.frame_len_a = n.store.frame_len_a ∧
    (stopStream n).startStream.store.frame_len_b = n.store.frame_len_b ∧
    (stopStream n).startStream.store.mjpeg_buf_a = n.store.mjpeg_buf_a ∧
    (stopStream n).startStream.store.mjpeg_buf_b = n.store.mjpeg_buf_b ∧
    (stopStream n).startStream.store.frame_cnt_recv = n.store.frame_cnt_recv := by
  obtain ⟨a, b, c, htbl⟩ := length_eq_three _ hlen
  have hs : (stopStream n).sys.streaming_started = false := by
    rw [stopStream_running n a b c hrun htbl]
  have hstore : (stopStream n).store = stopStream_frames n.store := by
    rw [stopStream_running n a b c hrun htbl]
  obtain ⟨f1, f2, f3, f4⟩ := startStream_stopped_fields (stopStream n).sys hs
  obtain ⟨g1, g2, g3, g4⟩ := startStream_stopped_fields initSys rfl
  have e1 : (stopStream n).startStream.store = stopStream_frames n.store := hstore
  have e2 : (stopStream n).startStream.sys = startStream (stopStream n).sys := rfl
  have e3 : (initNode buf_a buf_b).startStream.store = initStore buf_a buf_b := rfl
  have e4 : (initNode buf_a buf_b).startStream.sys = startStream initSys := rfl
  rw [e1, e2, e3, e4, f1, f2, f3, f4, g1, g2, g3, g4]
  exact ⟨rfl, rfl, rfl, rfl, rfl, rfl, rfl, rfl, rfl, rfl, rfl, rfl, rfl, rfl⟩

/-- Witness of C18 (amended): restart of the node with three workers and one
stored frame. -/
theorem restart_flags_table_queue_witness :
    admitted3.streaming_started = true ∧
    admitted3.streamTaskHandle.length = MAX_CLIENTS ∧
    (stopStream ⟨frame_cb freshStore (mkFrame 2000 1), admitted3, true, []⟩).startStream.sys.streamTaskHandle
      = [none, none, none] ∧
    (stopStream ⟨frame_cb freshStore (mkFrame 2000 1), admitted3, true, []⟩).startStream.store.frame_len_a
      = (frame_cb freshStore (mkFrame 2000 1)).frame_len_a :=
  ⟨by decide, by decide,
   (restart_flags_table_queue ⟨frame_cb freshStore (mkFrame 2000 1), admitted3, true, []⟩
      [] [] (by decide) (by decide)).2.2.2.2.2.2.2.1,
   (restart_flags_table_queue ⟨frame_cb freshStore (mkFrame 2000 1), admitted3, true, []⟩
      [] [] (by decide) (by decide)).2.2.2.2.2.2.2.2.2.1⟩

/-- C19: the code at the failing input.  `stopStream` is called while workers
2, 3 and 4 serve clients 1, 2 and 3 and the queue is empty: the three worker
tasks and the dispatcher are deleted and the table entries become null, but no
connection gets `client.stop()` and no client object is deleted, while the
exit of worker 2 by itself would close and delete client 1. -/
theorem forced_cancel_leaves_connections :
    admitted3.streamTaskHandle = [some 2, some 3, some 4] ∧
    workerClient admitted3 0 = some 1 ∧
    (stopStream ⟨freshStore, admitted3, true, []⟩).killed = [2, 3, 4, 1] ∧
    (stopStream ⟨freshStore, admitted3, true, []⟩).sys.streamTaskHandle
      = [none, none, none] ∧
    (stopStream ⟨freshStore, admitted3, true, []⟩).sys.stopped = [] ∧
    (stopStream ⟨freshStore, admitted3, true, []⟩).sys.deleted = [] ∧
    (stream_task_exit admitted3 2 1).stopped = [1] ∧
    (stream_task_exit admitted3 2 1).deleted = [1] ∧
    (stream_task_exit admitted3 2 1).streamTaskHandle = [none, some 3, some 4] :=
  ⟨by decide, by decide, by decide, by decide, by decide, by decide, by decide, by decide,
   by decide⟩

/-- C20: `stopStream` on a system that is not streaming (never started, or
stopped already) changes nothing: ready flags and selector, worker table,
queue handle, dispatcher handle and camera-driver flag are all as before. -/
theorem stop_when_stopped (n : Node) (h : n.sys.streaming_started = false) :
    stopStream n = n ∧
    (stopStream n).store.frame_ready_a = n.store.frame_ready_a ∧
    (stopStream n).store.frame_ready_b = n.store.frame_ready_b ∧
    (stopStream n).store.use_buf_a = n.store.use_buf_a ∧
    (stopStream n).sys.streamTaskHandle = n.sys.streamTaskHandle ∧
    (stopStream n).sys.clientQueue = n.sys.clientQueue ∧
    (stopStream n).sys.clientProcessorHandle = n.sys.clientProcessorHandle ∧
    (stopStream n).sys.uvcStarted = n.sys.uvcStarted := by
  have e : stopStream n = n := by simp [stopStream, h]
  rw [e]
  exact ⟨rfl, rfl, rfl, rfl, rfl, rfl, rfl, rfl⟩

/-- Witness of C20: a second `stopStream` after the node with three workers
has been stopped. -/
theorem stop_when_stopped_witness :
    (stopStream ⟨freshStore, admitted3, true, []⟩).sys.streaming_started = false ∧
    stopStream (stopStream ⟨freshStore, admitted3, true, []⟩)
      = stopStream ⟨freshStore, admitted3, true, []⟩ :=
  ⟨by decide,
   (stop_when_stopped (stopStream ⟨freshStore, admitted3, true, []⟩) (by decide)).1⟩

/-! ## C21: worker exit -/

/-- C21: when a worker leaves its loop and the table holds its handle in
entry `i` and nowhere else, the cleanup closes its connection, sets entry `i`
to null, leaves every other entry as it was, and deletes its client object. -/
theorem exit_releases_own_slot (y : StreamSys) (current streamClient i : Nat)
    (hi : i < MAX_CLIENTS)
    (hown : y.streamTaskHandle[i]? = some (some current))
    (huniq : ∀ j, j ≠ i → y.streamTaskHandle[j]? ≠ some (some current)) :
    (stream_task_exit y current streamClient).stopped = y.stopped ++ [streamClient] ∧
    (stream_task_exit y current streamClient).deleted = y.deleted ++ [streamClient] ∧
    (stream_task_exit y current streamClient).streamTaskHandle[i]? = some none ∧
    (∀ j, j ≠ i →
      (stream_task_exit y current streamClient).streamTaskHandle[j]?
        = y.streamTaskHandle[j]?) ∧
    (stream_task_exit y current streamClient).streamTaskHandle.length
      = y.streamTaskHandle.length ∧
    (stream_task_exit y current streamClient).clientQueue = y.clientQueue ∧
    (stream_task_exit y current streamClient).spawned = y.spawned := by
  have hfind : (List.range MAX_CLIENTS).find?
      (fun k => y.streamTaskHandle[k]? == some (some current)) = some i := by
    have h0 := huniq 0
    have h1 := huniq 1
    have h2 := huniq 2
    have hcases : i = 0 ∨ i = 1 ∨ i = 2 := by
      have : MAX_CLIENTS = 3 := rfl
      omega
    have hr : List.range MAX_CLIENTS = [0, 1, 2] := rfl
    rw [hr]
    rcases hcases with rfl | rfl | rfl
    · simp [List.find?, hown]
    · have e0 : (y.streamTaskHandle[0]? == some (some current)) = false := by
        simpa using h0 (by decide)
      simp [List.find?, hown, e0]
    · have e0 : (y.streamTaskHandle[0]? == some (some current)) = false := by
        simpa using h0 (by decide)
      have e1 : (y.streamTaskHandle[1]? == some (some current)) = false := by
        simpa using h1 (by decide)
      simp [List.find?, hown, e0, e1]
  have hlt : i < y.streamTaskHandle.length := by
    rcases Nat.lt_or_ge i y.streamTaskHandle.length with h | h
    · exact h
    · rw [List.getElem?_eq_none h] at hown
      cases hown
  have htbl : (stream_task_exit y current streamClient).streamTaskHandle
      = y.streamTaskHandle.set i none := by
    simp [stream_task_exit, clearOwnSlot, hfind]
  refine ⟨rfl, rfl, ?_, ?_, ?_, rfl, rfl⟩
  · rw [htbl, List.getElem?_set_self hlt]
  · intro j hj
    rw [htbl, List.getElem?_set_ne (Ne.symm hj)]
  · rw [htbl, List.length_set]

/-- Witness of C21: worker 3, serving client 2 in entry 1, exits. -/
theorem exit_releases_own_slot_witness :
    admitted3.streamTaskHandle[1]? = some (some 3) ∧
    (stream_task_exit admitted3 3 2).streamTaskHandle[1]? = some none ∧
    (stream_task_exit admitted3 3 2).stopped = admitted3.stopped ++ [2] :=
  ⟨by decide,
   (exit_releases_own_slot admitted3 3 2 1 (by decide) (by decide)
      (by
        intro j hj
        have h : admitted3.streamTaskHandle = [some 2, some 3, some 4] := by decide
        rw [h]
        match j, hj with
        | 0, _ => decide
        | 2, _ => decide
        | j + 3, _ => simp)).2.2.1,
   (exit_releases_own_slot admitted3 3 2 1 (by decide) (by decide)
      (by
        intro j hj
        have h : admitted3.streamTaskHandle = [some 2, some 3, some 4] := by decide
        rw [h]
        match j, hj with
        | 0, _ => decide
        | 2, _ => decide
        | j + 3, _ => simp)).1⟩

/-! ## C22: the poll cadence -/

theorem stream_task_part_nonempty (s : FrameStore) (p : BufPtr)
    (hp : (acquireReadable s).1.frameBuffer = some p)
    (hl : (acquireReadable s).1.frameLen > 0) :
    (stream_task_part s).1 ≠ [] := by
  simp [stream_task_part, hp, hl, print]

theorem pass_written (l : Nat) (t : FrameStore) (a b : Nat)
    (h : 10 ≤ (a + 2 ^ 32 - l) % 2 ^ 32) :
    (stream_task_pass l t a b).written = (stream_task_part t).1 := by
  unfold stream_task_pass
  rw [if_pos h]


/-- C22, as stated, fails: a worker whose `lastFrameTime` is 0 polls the fresh
store at clock 100, gets no frame and keeps `lastFrameTime` 0; the next pass,
at clock 102, polls again: two successive acquire attempts 2 ms apart. -/
theorem poll_cadence_counterexample :
    (stream_task_pass 0 freshStore 100 101).polled = true ∧
    (stream_task_pass 0 freshStore 100 101).written = [] ∧
    (stream_task_pass 0 freshStore 100 101).lastFrameTime = 0 ∧
    (stream_task_pass (stream_task_pass 0 freshStore 100 101).lastFrameTime
      (stream_task_pass 0 freshStore 100 101).store 102 103).polled = true ∧
    102 - 100 < 10 :=
  ⟨by decide, by decide, by decide, by decide, by decide⟩

/-- C22, amended: a worker runs the acquire step in a pass exactly when at
least 10 ms have gone by on its millisecond clock, by unsigned 32-bit
wrap-around subtraction, since `lastFrameTime`, which is the clock value taken
after the last frame the worker sent (0 before the first one): a pass that
sends a frame sets it, a pass that polls without getting a frame leaves it.
So a poll that follows a sent frame comes at least 10 ms after it. -/
theorem poll_after_sent_frame (last : Nat) (s s1 : FrameStore) (now sentAt now1 sentAt1 : Nat)
    (hsent : (stream_task_pass last s now sentAt).written ≠ [])
    (hpoll : (stream_task_pass (stream_task_pass last s now sentAt).lastFrameTime s1
      now1 sentAt1).polled = true) :
    (stream_task_pass last s now sentAt).polled = true ∧
    10 ≤ (now + 2 ^ 32 - last) % 2 ^ 32 ∧
    (stream_task_pass last s now sentAt).lastFrameTime = sentAt ∧
    10 ≤ (now1 + 2 ^ 32 - sentAt) % 2 ^ 32 ∧
    (∀ (l : Nat) (t : FrameStore) (a b : Nat),
      ((stream_task_pass l t a b).polled = true ↔ 10 ≤ (a + 2 ^ 32 - l) % 2 ^ 32) ∧
      ((stream_task_pass l t a b).written = [] → (stream_task_pass l t a b).lastFrameTime = l)) := by
  have hgen : ∀ (l : Nat) (t : FrameStore) (a b : Nat),
      ((stream_task_pass l t a b).polled = true ↔ 10 ≤ (a + 2 ^ 32 - l) % 2 ^ 32) ∧
      ((stream_task_pass l t a b).written = [] → (stream_task_pass l t a b).lastFrameTime = l) ∧
      ((stream_task_pass l t a b).written ≠ [] → (stream_task_pass l t a b).lastFrameTime = b) := by
    intro l t a b
    unfold stream_task_pass
    by_cases hc : 10 ≤ (a + 2 ^ 32 - l) % 2 ^ 32
    · rw [if_pos hc]
      refine ⟨⟨fun _ => hc, fun _ => rfl⟩, ?_, ?_⟩
      · intro hw
        simp only [stream_task_part] at hw
        cases hb : (acquireReadable t).1.frameBuffer with
        | none => simp
        | some p =>
          rw [hb] at hw
          by_cases hl : (acquireReadable t).1.frameLen > 0
          · simp [hl, print] at hw
          · simp [hl]
      · intro hw
        simp only [stream_task_part] at hw
        cases hb : (acquireReadable t).1.frameBuffer with
        | none => rw [hb] at hw; simp at hw
        | some p =>
          rw [hb] at hw
          by_cases hl : (acquireReadable t).1.frameLen > 0
          · simp [hl]
          · simp [hl] at hw
    · rw [if_neg hc]
      exact ⟨⟨fun h => Bool.noConfusion h, fun h => absurd h hc⟩, fun _ => rfl,
        fun h => absurd rfl h⟩
  obtain ⟨g1, _, g3⟩ := hgen last s now sentAt
  have hp : (stream_task_pass last s now sentAt).polled = true := by
    by_contra hn
    have : ¬ 10 ≤ (now + 2 ^ 32 - last) % 2 ^ 32 := fun h => hn (g1.2 h)
    apply hsent
    unfold stream_task_pass
    rw [if_neg this]
  have hl := g3 hsent
  rw [hl] at hpoll
  exact ⟨hp, g1.1 hp, hl, ((hgen sentAt s1 now1 sentAt1).1).1 hpoll,
    fun l t a b => ⟨(hgen l t a b).1, (hgen l t a b).2.1⟩⟩

/-- Witness of C22 (amended): a pass at clock 100 sends the frame that waits
in the store and sets `lastFrameTime` to 105; the pass at clock 115 polls. -/
theorem poll_after_sent_frame_witness :
    (stream_task_pass 0 (pushAll freshStore [mkFrame 2000 1, mkFrame 3000 2]) 100 105).written
      ≠ [] ∧
    (stream_task_pass 0 (pushAll freshStore [mkFrame 2000 1, mkFrame 3000 2]) 100 105).lastFrameTime
      = 105 ∧
    10 ≤ (115 + 2 ^ 32 - 105) % 2 ^ 32 :=
  have hw : (stream_task_pass 0 (pushAll freshStore [mkFrame 2000 1, mkFrame 3000 2])
      100 105).written ≠ [] := by
    rw [pass_written _ _ _ _ (by decide)]
    exact stream_task_part_nonempty _ .buf_a (by decide) (by decide)
  have hq : (stream_task_pass
      (stream_task_pass 0 (pushAll freshStore [mkFrame 2000 1, mkFrame 3000 2])
        100 105).lastFrameTime freshStore 115 116).polled = true := by decide
  ⟨hw,
   (poll_after_sent_frame 0 (pushAll freshStore [mkFrame 2000 1, mkFrame 3000 2]) freshStore
      100 105 115 116 hw hq).2.2.1,
   (poll_after_sent_frame 0 (pushAll freshStore [mkFrame 2000 1, mkFrame 3000 2]) freshStore
      100 105 115 116 hw hq).2.2.2.1⟩

/-! ## C23: first in, first out -/

theorem newlyStored_self (s : FrameStore) : newlyStored s s = [] := by
  rcases s with ⟨a, b, la, lb, ra, rb, u, c⟩
  cases ra <;> cases rb <;> simp [newlyStored]

theorem log_step_push (s : FrameStore) (frame : Option uvc_frame_t)
    (hinv : s.use_buf_a = (s.frame_ready_a == s.frame_ready_b)) :
    pending s ++ newlyStored s (frame_cb s frame) = pending (frame_cb s frame) := by
  rcases frame_cb_cases s frame with h0 | ⟨f, d, _, _, _, _, h1⟩
  · rw [h0, newlyStored_self, List.append_nil]
  · rw [h1]
    rcases s with ⟨a, b, la, lb, ra, rb, u, c⟩
    cases ra <;> cases rb <;> cases u <;>
      simp_all [storeFrame, pending, newlyStored, slotFrame, designated, BufPtr.other,
        deref, lenOf]

theorem log_step_poll (s : FrameStore)
    (hinv : s.use_buf_a = (s.frame_ready_a == s.frame_ready_b)) :
    pending s = returnedFrame (acquireReadable s) ++ pending (acquireReadable s).2 := by
  rcases s with ⟨a, b, la, lb, ra, rb, u, c⟩
  cases ra <;> cases rb <;> cases u <;>
    simp_all [acquireReadable, pending, returnedFrame, slotFrame, designated, BufPtr.other,
      deref, lenOf]

theorem frame_cb_selector (s : FrameStore) (frame : Option uvc_frame_t)
    (hinv : s.use_buf_a = (s.frame_ready_a == s.frame_ready_b)) :
    (frame_cb s frame).use_buf_a =
      ((frame_cb s frame).frame_ready_a == (frame_cb s frame).frame_ready_b) := by
  rcases frame_cb_cases s frame with h0 | ⟨f, d, _, _, _, _, h1⟩
  · rw [h0]; exact hinv
  · rw [h1]; exact storeFrame_selector s d _ hinv

theorem acquire_selector (s : FrameStore)
    (hinv : s.use_buf_a = (s.frame_ready_a == s.frame_ready_b)) :
    (acquireReadable s).2.use_buf_a =
      ((acquireReadable s).2.frame_ready_a == (acquireReadable s).2.frame_ready_b) := by
  rcases s with ⟨a, b, la, lb, ra, rb, u, c⟩
  cases ra <;> cases rb <;> cases u <;> simp_all [acquireReadable]

theorem runLog_pending (evs : List Event) :
    ∀ s : FrameStore, s.use_buf_a = (s.frame_ready_a == s.frame_ready_b) →
      pending s ++ (runLog s evs).1 = (runLog s evs).2.1 ++ pending (runLog s evs).2.2 := by
  induction evs with
  | nil => intro s _; simp [runLog]
  | cons e evs ih =>
    intro s hinv
    cases e with
    | push frame =>
      have h1 := log_step_push s frame hinv
      have h2 := ih (frame_cb s frame) (frame_cb_selector s frame hinv)
      simp only [runLog]
      rw [← List.append_assoc, h1, h2]
    | poll =>
      have h1 := log_step_poll s hinv
      have h2 := ih (acquireReadable s).2 (acquire_selector s hinv)
      simp only [runLog]
      rw [h1, List.append_assoc, h2, List.append_assoc]

/-- C23: for every sequence of producer calls and polls, each atomic, run from
the initial store, the frames the polls returned are an initial part of the
frames `frame_cb` stored, in the same order and with the same bytes and
lengths; what is left over is what still waits in the store.  A producer call
never changes a slot whose ready flag is set, and a frame it stores (data of
at least `data_bytes` bytes) is logged with exactly its bytes and length. -/
theorem fifo_handoff (buf_a buf_b : List Nat) (evs : List Event) :
    (runLog (initStore buf_a buf_b) evs).1
      = (runLog (initStore buf_a buf_b) evs).2.1
        ++ pending (runLog (initStore buf_a buf_b) evs).2.2 ∧
    (∃ rest, (runLog (initStore buf_a buf_b) evs).1
      = (runLog (initStore buf_a buf_b) evs).2.1 ++ rest) ∧
    (∀ (s : FrameStore) (frame : Option uvc_frame_t) (p : BufPtr),
      readyOf s p = true →
        readyOf (frame_cb s frame) p = true ∧
        deref (frame_cb s frame) p = deref s p ∧
        lenOf (frame_cb s frame) p = lenOf s p) ∧
    (∀ (s : FrameStore) (f : uvc_frame_t) (d : List Nat),
      s.use_buf_a = (s.frame_ready_a == s.frame_ready_b) →
      f.data = some d → 2000 ≤ f.data_bytes → f.data_bytes ≤ MJPEG_BUF_SIZE →
      f.data_bytes ≤ d.length → readyOf s (designated s) = false →
        newlyStored s (frame_cb s (some f)) = [(d.take f.data_bytes, f.data_bytes)]) := by
  have h := runLog_pending evs (initStore buf_a buf_b) rfl
  have h0 : pending (initStore buf_a buf_b) = [] := rfl
  rw [h0, List.nil_append] at h
  refine ⟨h, ⟨_, h⟩, ?_, ?_⟩
  · intro s frame p hp
    rcases frame_cb_cases s frame with e | ⟨f, d, _, _, _, _, e⟩
    · rw [e]; exact ⟨hp, rfl, rfl⟩
    · rw [e]
      rcases s with ⟨a, b, la, lb, ra, rb, u, c⟩
      cases p <;> cases ra <;> cases rb <;> cases u <;>
        simp_all [storeFrame, readyOf, deref, lenOf]
  · intro s f d hinv hd hlo hhi hlen hfree
    rw [frame_cb_in_range s f d hd hlo hhi]
    have hm := fun dst => memcpy_take dst d f.data_bytes hlen
    rcases s with ⟨a, b, la, lb, ra, rb, u, c⟩
    cases ra <;> cases rb <;> cases u <;>
      simp_all [storeFrame, newlyStored, slotFrame, designated, readyOf, deref, lenOf]

/-! ## C24, C25: the flag invariant and the alternation -/

/-- C24: in every store state reachable from the initial globals by producer
calls with arbitrary frames, acquire steps and `stopStream` resets,
`use_buf_a` is true exactly when the two ready flags are equal, and the
triples (`use_buf_a`, `frame_ready_a`, `frame_ready_b`) of reachable states
are exactly (T,F,F), (F,T,F), (T,T,T) and (F,F,T). -/
theorem flag_invariant :
    (∀ s : FrameStore, Reachable s →
      (s.use_buf_a = true ↔ s.frame_ready_a = s.frame_ready_b)) ∧
    (∀ u ra rb : Bool,
      (∃ s : FrameStore, Reachable s ∧ s.use_buf_a = u ∧ s.frame_ready_a = ra ∧
        s.frame_ready_b = rb) ↔
      (u, ra, rb) = (true, false, false) ∨ (u, ra, rb) = (false, true, false) ∨
      (u, ra, rb) = (true, true, true) ∨ (u, ra, rb) = (false, false, true)) := by
  have hinv : ∀ s : FrameStore, Reachable s →
      (s.use_buf_a = true ↔ s.frame_ready_a = s.frame_ready_b) := by
    intro s hs
    have h := reachable_selector s hs
    rcases s with ⟨a, b, la, lb, ra, rb, u, c⟩
    cases ra <;> cases rb <;> cases u <;> simp_all
  refine ⟨hinv, ?_⟩
  intro u ra rb
  constructor
  · rintro ⟨s, hs, rfl, rfl, rfl⟩
    have h := reachable_selector s hs
    rcases s with ⟨a, b, la, lb, ra, rb, u, c⟩
    cases ra <;> cases rb <;> cases u <;> simp_all
  · have r0 : Reachable (initStore [] []) := Reachable.init _ _
    have r1 : Reachable (frame_cb (initStore [] []) (mkFrame 2000 1)) := Reachable.push _ r0
    have r2 : Reachable (frame_cb (frame_cb (initStore [] []) (mkFrame 2000 1))
        (mkFrame 2000 2)) := Reachable.push _ r1
    have r3 : Reachable (acquireReadable (frame_cb (frame_cb (initStore [] [])
        (mkFrame 2000 1)) (mkFrame 2000 2))).2 := Reachable.acquire r2
    rintro (h | h | h | h) <;> cases h
    · exact ⟨_, r0, by decide, by decide, by decide⟩
    · exact ⟨_, r1, by decide, by decide, by decide⟩
    · exact ⟨_, r2, by decide, by decide, by decide⟩
    · exact ⟨_, r3, by decide, by decide, by decide⟩

/-- C25: in every reachable store state exactly one of the two holds: a valid
frame pushed through `frame_cb` is stored (one more slot is ready afterwards),
or an acquire step returns a frame.  From the fresh store, after one valid
frame any number of polls return nothing, and a second valid frame is stored;
once both slots are ready a further valid frame is dropped, also after one
poll, and is stored again after two polls. -/
theorem strict_alternation (s : FrameStore) (f g : uvc_frame_t) (d e : List Nat)
    (buf_a buf_b : List Nat) (n : Nat)
    (hr : Reachable s)
    (hd : f.data = some d) (hlo : 2000 ≤ f.data_bytes) (hhi : f.data_bytes ≤ MJPEG_BUF_SIZE)
    (hg : g.data = some e) (hglo : 2000 ≤ g.data_bytes)
    (hghi : g.data_bytes ≤ MJPEG_BUF_SIZE) :
    ((readyCount (frame_cb s (some f)) = readyCount s + 1 ∧
        (acquireReadable s).1.frameBuffer = none) ∨
      (readyCount (frame_cb s (some f)) = readyCount s ∧
        (acquireReadable s).1.frameBuffer ≠ none)) ∧
    (acquireN n (frame_cb (initStore buf_a buf_b) (some f))).1
      = List.replicate n ⟨none, 0⟩ ∧
    (acquireN n (frame_cb (initStore buf_a buf_b) (some f))).2
      = frame_cb (initStore buf_a buf_b) (some f) ∧
    bothReady (frame_cb (frame_cb (initStore buf_a buf_b) (some f)) (some g)) = true ∧
    (bothReady s = true →
      readyCount (frame_cb s (some f)) = readyCount s ∧
      readyCount (frame_cb (acquireReadable s).2 (some f)) = readyCount (acquireReadable s).2 ∧
      readyCount (frame_cb (acquireReadable (acquireReadable s).2).2 (some f))
        = readyCount (acquireReadable (acquireReadable s).2).2 + 1) := by
  have hinv := reachable_selector s hr
  have hidle : ∀ (m : Nat) (t : FrameStore),
      (acquireReadable t).1 = ⟨none, 0⟩ → (acquireReadable t).2 = t →
      acquireN m t = (List.replicate m ⟨none, 0⟩, t) := by
    intro m
    induction m with
    | zero => intro t _ _; rfl
    | succ m ih =>
      intro t h1 h2
      simp only [acquireN, h1, h2, ih t h1 h2, List.replicate_succ]
  have hone : (acquireReadable (frame_cb (initStore buf_a buf_b) (some f))).1 = ⟨none, 0⟩ ∧
      (acquireReadable (frame_cb (initStore buf_a buf_b) (some f))).2
        = frame_cb (initStore buf_a buf_b) (some f) := by
    rw [frame_cb_in_range _ f d hd hlo hhi]
    simp [storeFrame, initStore, acquireReadable]
  have hrun := hidle n _ hone.1 hone.2
  refine ⟨?_, by rw [hrun], by rw [hrun], ?_, ?_⟩
  · rw [frame_cb_in_range s f d hd hlo hhi]
    rcases s with ⟨a, b, la, lb, ra, rb, u, c⟩
    cases ra <;> cases rb <;> cases u <;>
      simp_all [storeFrame, acquireReadable, readyCount]
  · rw [frame_cb_in_range _ g e hg hglo hghi, frame_cb_in_range _ f d hd hlo hhi]
    simp [storeFrame, initStore, bothReady]
  · intro hboth
    rw [frame_cb_in_range s f d hd hlo hhi, frame_cb_in_range _ f d hd hlo hhi,
      frame_cb_in_range _ f d hd hlo hhi]
    rcases s with ⟨a, b, la, lb, ra, rb, u, c⟩
    cases ra <;> cases rb <;> cases u <;>
      simp_all [storeFrame, acquireReadable, readyCount, bothReady]

/-- Witness of C25: in the store that holds one frame a valid frame is stored
and a poll returns nothing. -/
theorem strict_alternation_witness :
    Reachable (frame_cb freshStore (mkFrame 2000 1)) ∧
    ((readyCount (frame_cb (frame_cb freshStore (mkFrame 2000 1))
          (some ⟨some (List.replicate 3000 2), 3000⟩))
        = readyCount (frame_cb freshStore (mkFrame 2000 1)) + 1 ∧
      (acquireReadable (frame_cb freshStore (mkFrame 2000 1))).1.frameBuffer = none) ∨
     (readyCount (frame_cb (frame_cb freshStore (mkFrame 2000 1))
          (some ⟨some (List.replicate 3000 2), 3000⟩))
        = readyCount (frame_cb freshStore (mkFrame 2000 1)) ∧
      (acquireReadable (frame_cb freshStore (mkFrame 2000 1))).1.frameBuffer ≠ none)) :=
  ⟨Reachable.push _ (Reachable.init _ _),
   (strict_alternation (frame_cb freshStore (mkFrame 2000 1))
      ⟨some (List.replicate 3000 2), 3000⟩ ⟨some (List.replicate 3000 2), 3000⟩
      (List.replicate 3000 2) (List.replicate 3000 2) [] [] 0
      (Reachable.push _ (Reachable.init _ _)) rfl (by decide) (by decide) rfl (by decide)
      (by decide)).1⟩

/-! ## C26, C27: the received counter and the stored lengths -/

theorem storeFrame_counter (s : FrameStore) (d : List Nat) (n : Nat) :
    (storeFrame s d n).frame_cnt_recv = (s.frame_cnt_recv + 1) % 2 ^ 32 := by
  rcases s with ⟨a, b, la, lb, ra, rb, u, c⟩
  cases ra <;> cases rb <;> cases u <;> simp [storeFrame]

/-- C26: a call of `frame_cb` sets `frame_cnt_recv` to its value plus one
modulo `2^32` exactly when the frame pointer and its data pointer are non-null
and `2000 ≤ length ≤ 960000`, also in a store where no slot is writable and
the frame is dropped; for every other frame (null frame, null data, zero or
out-of-range length) the counter and the whole store are unchanged. -/
theorem received_counter (s : FrameStore) (frame : Option uvc_frame_t) :
    ((frame_cb s frame).frame_cnt_recv = (s.frame_cnt_recv + 1) % 2 ^ 32 ↔
      ∃ f d, frame = some f ∧ f.data = some d ∧ 2000 ≤ f.data_bytes ∧
        f.data_bytes ≤ 960000) ∧
    ((¬ ∃ f d, frame = some f ∧ f.data = some d ∧ 2000 ≤ f.data_bytes ∧
        f.data_bytes ≤ 960000) → frame_cb s frame = s) ∧
    ((∃ f d, frame = some f ∧ f.data = some d ∧ 2000 ≤ f.data_bytes ∧
        f.data_bytes ≤ 960000) → bothReady s = true →
      frame_cb s frame = { s with frame_cnt_recv := (s.frame_cnt_recv + 1) % 2 ^ 32 }) := by
  have hcap : MJPEG_BUF_SIZE = 960000 := MJPEG_BUF_SIZE_eq
  have hne : (s.frame_cnt_recv + 1) % 2 ^ 32 ≠ s.frame_cnt_recv := by
    have : (s.frame_cnt_recv + 1) % 2 ^ 32 < 2 ^ 32 := Nat.mod_lt _ (by decide)
    omega
  have hvalid : ∀ f d, frame = some f → f.data = some d → 2000 ≤ f.data_bytes →
      f.data_bytes ≤ 960000 → frame_cb s frame = storeFrame s d f.data_bytes := by
    intro f d hf hd hlo hhi
    rw [hf]
    exact frame_cb_in_range s f d hd hlo (by rw [hcap]; exact hhi)
  have hinvalid : (¬ ∃ f d, frame = some f ∧ f.data = some d ∧ 2000 ≤ f.data_bytes ∧
      f.data_bytes ≤ 960000) → frame_cb s frame = s := by
    intro hn
    rcases frame_cb_cases s frame with h0 | ⟨f, d, hf, hd, hlo, hhi, _⟩
    · exact h0
    · exact absurd ⟨f, d, hf, hd, hlo, by rw [hcap] at hhi; exact hhi⟩ hn
  refine ⟨⟨?_, ?_⟩, hinvalid, ?_⟩
  · intro hc
    by_contra hn
    rw [hinvalid hn] at hc
    exact hne hc.symm
  · rintro ⟨f, d, hf, hd, hlo, hhi⟩
    rw [hvalid f d hf hd hlo hhi, storeFrame_counter]
  · rintro ⟨f, d, hf, hd, hlo, hhi⟩ hboth
    rw [hvalid f d hf hd hlo hhi]
    rcases s with ⟨a, b, la, lb, ra, rb, u, c⟩
    cases ra <;> cases rb <;> cases u <;> simp_all [storeFrame, bothReady]

theorem reachable_lengths (s : FrameStore) (h : Reachable s) :
    (s.frame_ready_a = true → 2000 ≤ s.frame_len_a ∧ s.frame_len_a ≤ MJPEG_BUF_SIZE) ∧
    (s.frame_ready_b = true → 2000 ≤ s.frame_len_b ∧ s.frame_len_b ≤ MJPEG_BUF_SIZE) := by
  induction h with
  | init a b => exact ⟨fun h => Bool.noConfusion h, fun h => Bool.noConfusion h⟩
  | @push s0 frame _ ih =>
    rcases frame_cb_cases s0 frame with h0 | ⟨f, d, _, _, hlo, hhi, h1⟩
    · rw [h0]; exact ih
    · rw [h1]
      rcases s0 with ⟨a, b, la, lb, ra, rb, u, c⟩
      cases ra <;> cases rb <;> cases u <;> simp_all [storeFrame]
  | @acquire s0 _ ih =>
    rcases s0 with ⟨a, b, la, lb, ra, rb, u, c⟩
    cases ra <;> cases rb <;> cases u <;> simp_all [acquireReadable]
  | stop _ ih => simp [stopStream_frames]

/-- C27: in every reachable store state each slot whose ready flag is set has
a stored length in `[2000, 960000]`; so whenever the acquire step returns a
slot, the guard `frameBuffer != null and frameLen > 0` holds and the pass
writes the frame to the client. -/
theorem ready_implies_valid_length (s : FrameStore) (hr : Reachable s) :
    (s.frame_ready_a = true → 2000 ≤ s.frame_len_a ∧ s.frame_len_a ≤ 960000) ∧
    (s.frame_ready_b = true → 2000 ≤ s.frame_len_b ∧ s.frame_len_b ≤ 960000) ∧
    (∀ p, (acquireReadable s).1.frameBuffer = some p →
      readyOf s p = true ∧ readyOf (acquireReadable s).2 p = false ∧
      2000 ≤ (acquireReadable s).1.frameLen ∧ (acquireReadable s).1.frameLen ≤ 960000 ∧
      0 < (acquireReadable s).1.frameLen ∧
      (stream_task_part s).1 ≠ [] ∧
      (∀ last now sentAt, 10 ≤ (now + 2 ^ 32 - last) % 2 ^ 32 →
        (stream_task_pass last s now sentAt).written ≠ [])) := by
  have hcap : MJPEG_BUF_SIZE = 960000 := MJPEG_BUF_SIZE_eq
  obtain ⟨ha, hb⟩ := reachable_lengths s hr
  rw [hcap] at ha hb
  refine ⟨ha, hb, ?_⟩
  intro p hp
  have hfacts : readyOf s p = true ∧ readyOf (acquireReadable s).2 p = false ∧
      2000 ≤ (acquireReadable s).1.frameLen ∧ (acquireReadable s).1.frameLen ≤ 960000 := by
    rcases s with ⟨a, b, la, lb, ra, rb, u, c⟩
    cases p <;> cases ra <;> cases rb <;> cases u <;>
      simp_all [acquireReadable, readyOf]
  obtain ⟨h1, h2, h3, h4⟩ := hfacts
  have hpos : 0 < (acquireReadable s).1.frameLen := by omega
  have hne := stream_task_part_nonempty s p hp hpos
  refine ⟨h1, h2, h3, h4, hpos, hne, ?_⟩
  intro last now sentAt hc
  rw [pass_written last s now sentAt hc]
  exact hne

/-- Witness of C27: the store after two stored frames is reachable and its
slot A is ready with length 2000. -/
theorem ready_implies_valid_length_witness :
    Reachable (frame_cb (frame_cb freshStore (mkFrame 2000 1)) (mkFrame 3000 2)) ∧
    (frame_cb (frame_cb freshStore (mkFrame 2000 1)) (mkFrame 3000 2)).frame_ready_a = true ∧
    2000 ≤ (frame_cb (frame_cb freshStore (mkFrame 2000 1)) (mkFrame 3000 2)).frame_len_a ∧
    (frame_cb (frame_cb freshStore (mkFrame 2000 1)) (mkFrame 3000 2)).frame_len_a ≤ 960000 :=
  ⟨Reachable.push _ (Reachable.push _ (Reachable.init _ _)), by decide,
   (ready_implies_valid_length _
      (Reachable.push _ (Reachable.push _ (Reachable.init _ _)))).1 (by decide)⟩

/-! ## C28: credential round trip -/

theorem EEPROM_read_write (e : List Nat) (a x addr : Nat) :
    EEPROM_read (EEPROM_write e a x) addr =
      if addr = a ∧ a < e.length then x % 256 else EEPROM_read e addr := by
  unfold EEPROM_read EEPROM_write
  rw [List.getD_eq_getElem?_getD, List.getD_eq_getElem?_getD, List.getElem?_set]
  by_cases h : a = addr
  · subst h
    by_cases hl : a < e.length
    · simp [hl]
    · simp [hl]
      rw [List.getElem?_eq_none (by omega)]
      rfl
  · have h' : ¬ addr = a := fun hh => h hh.symm
    simp [h, h']

theorem EEPROM_write_length (e : List Nat) (a x : Nat) :
    (EEPROM_write e a x).length = e.length := by
  simp [EEPROM_write]

theorem writeEEPROM_from_spec (offset : Nat) (value : List Nat) (k : Nat) :
    ∀ (i : Nat) (e : List Nat),
      (writeEEPROM_from offset value k i e).length = e.length ∧
      ∀ addr, EEPROM_read (writeEEPROM_from offset value k i e) addr =
        if offset + i ≤ addr ∧ addr < offset + i + k ∧ addr < e.length
        then (value.getD (addr - offset) 0) % 256 else EEPROM_read e addr := by
  induction k with
  | zero =>
    intro i e
    refine ⟨rfl, fun addr => ?_⟩
    have : ¬ (offset + i ≤ addr ∧ addr < offset + i + 0 ∧ addr < e.length) := by omega
    rw [if_neg this]
    rfl
  | succ k ih =>
    intro i e
    have hbody : (if i < value.length then EEPROM_write e (offset + i) (value.getD i 0)
        else EEPROM_write e (offset + i) 0)
        = EEPROM_write e (offset + i) (value.getD i 0) := by
      by_cases hi : i < value.length
      · rw [if_pos hi]
      · rw [if_neg hi, List.getD_eq_default _ _ (by omega)]
    have hstep : writeEEPROM_from offset value (k + 1) i e
        = writeEEPROM_from offset value k (i + 1)
            (EEPROM_write e (offset + i) (value.getD i 0)) := by
      simp only [writeEEPROM_from, hbody]
    rw [hstep]
    obtain ⟨hl, hr⟩ := ih (i + 1) (EEPROM_write e (offset + i) (value.getD i 0))
    refine ⟨by rw [hl, EEPROM_write_length], fun addr => ?_⟩
    rw [hr addr, EEPROM_write_length, EEPROM_read_write]
    by_cases h1 : offset + (i + 1) ≤ addr ∧ addr < offset + (i + 1) + k ∧ addr < e.length
    · rw [if_pos h1, if_pos (by omega)]
    · rw [if_neg h1]
      by_cases h2 : addr = offset + i ∧ offset + i < e.length
      · rw [if_pos h2, if_pos (by omega)]
        have : addr - offset = i := by omega
        rw [this]
      · rw [if_neg h2, if_neg (by omega)]

theorem readEEPROM_from_spec (e : List Nat) (offset : Nat) (k : Nat) :
    ∀ (i : Nat) (w : List Nat), w.length ≤ k →
      (∀ ch ∈ w, 32 ≤ ch ∧ ch ≤ 126) →
      (∀ j, j < k → EEPROM_read e (offset + i + j) = w.getD j 0) →
      readEEPROM_from e offset k i = w := by
  induction k with
  | zero =>
    intro i w hw _ _
    have : w = [] := List.length_eq_zero.1 (by omega)
    rw [this]
    rfl
  | succ k ih =>
    intro i w hw hp hm
    have h0 := hm 0 (by omega)
    rw [Nat.add_zero] at h0
    cases w with
    | nil =>
      simp only [readEEPROM_from, h0]
      simp
    | cons a w' =>
      have ha := hp a (List.mem_cons_self _ _)
      have hrec := ih (i + 1) w' (by simp at hw; omega)
        (fun ch hch => hp ch (List.mem_cons_of_mem _ hch))
        (fun j hj => by
          have := hm (j + 1) (by omega)
          rw [List.getD_cons_succ] at this
          rw [← this]
          congr 1
          omega)
      have hc : EEPROM_read e (offset + i) = a := by
        rw [h0]; rfl
      have hne : ¬ a = 0 := by omega
      simp only [readEEPROM_from, hc, hne, if_false, ha, and_self, if_true, hrec]

theorem read_after_write (e : List Nat) (offset maxLen : Nat) (value : List Nat)
    (hlen : value.length ≤ maxLen) (hsize : offset + maxLen ≤ e.length)
    (hp : ∀ ch ∈ value, 32 ≤ ch ∧ ch ≤ 126) :
    readEEPROM (writeEEPROM e offset maxLen value) offset maxLen = value := by
  unfold readEEPROM writeEEPROM
  apply readEEPROM_from_spec _ _ _ 0 value hlen hp
  intro j hj
  rw [(writeEEPROM_from_spec offset value maxLen 0 e).2, if_pos (by omega)]
  have : offset + 0 + j - offset = j := by omega
  rw [this]
  by_cases hjl : j < value.length
  · have hmem : value.getD j 0 ∈ value := by
      rw [List.getD_eq_getElem _ _ hjl]
      exact List.getElem_mem _
    have := hp _ hmem
    omega
  · rw [List.getD_eq_default _ _ (by omega)]

theorem getD_printable_mod (value : List Nat) (j : Nat)
    (hp : ∀ ch ∈ value, 32 ≤ ch ∧ ch ≤ 126) :
    value.getD j 0 % 256 = value.getD j 0 := by
  by_cases hjl : j < value.length
  · have hmem : value.getD j 0 ∈ value := by
      rw [List.getD_eq_getElem _ _ hjl]
      exact List.getElem_mem _
    have := hp _ hmem
    omega
  · rw [List.getD_eq_default _ _ (by omega)]

/-- C28: with an EEPROM of at least 96 bytes, for every SSID of 1..32
characters and password of 0..64 characters, all with codes 32..126, after
`saveCredentials(ssid, password)` the EEPROM reads back as `ssid` at offset 0
and as `password` at offset 32, and `loadCredentials` restores
`savedSSID = ssid` and `savedPassword = password` from that EEPROM whatever
the two globals held before the load (empty after a restart, or anything
else), without wiping the EEPROM; the same holds for the load that directly
follows the save; `readEEPROM(off, max)` after `writeEEPROM(off, max, s)`
returns `s` for every such `s` of at most `max` characters, also of exactly
`max`; `saveCredentials` with an SSID longer than 32 or a password longer
than 64 characters changes neither the EEPROM nor the saved values. -/
theorem credential_round_trip (c : Credentials) (ssid password ssid0 password0 : List Nat)
    (hsize : 96 ≤ c.eeprom.length)
    (h1 : 1 ≤ ssid.length) (h2 : ssid.length ≤ 32) (h3 : password.length ≤ 64)
    (hp1 : ∀ ch ∈ ssid, 32 ≤ ch ∧ ch ≤ 126)
    (hp2 : ∀ ch ∈ password, 32 ≤ ch ∧ ch ≤ 126) :
    readEEPROM (saveCredentials c ssid password).eeprom 0 32 = ssid ∧
    readEEPROM (saveCredentials c ssid password).eeprom 32 64 = password ∧
    loadCredentials
        { eeprom := (saveCredentials c ssid password).eeprom,
          savedSSID := ssid0, savedPassword := password0 }
      = { eeprom := (saveCredentials c ssid password).eeprom,
          savedSSID := ssid, savedPassword := password } ∧
    (loadCredentials (saveCredentials c ssid password)).savedSSID = ssid ∧
    (loadCredentials (saveCredentials c ssid password)).savedPassword = password ∧
    (loadCredentials (saveCredentials c ssid password)).eeprom
      = (saveCredentials c ssid password).eeprom ∧
    (saveCredentials c ssid password).savedSSID = ssid ∧
    (saveCredentials c ssid password).savedPassword = password ∧
    (∀ (e : List Nat) (offset maxLen : Nat) (value : List Nat),
      value.length ≤ maxLen → offset + maxLen ≤ e.length →
      (∀ ch ∈ value, 32 ≤ ch ∧ ch ≤ 126) →
      readEEPROM (writeEEPROM e offset maxLen value) offset maxLen = value) ∧
    (∀ (c1 : Credentials) (s p : List Nat),
      s.length > 32 ∨ p.length > 64 → saveCredentials c1 s p = c1) := by
  have hsave : saveCredentials c ssid password =
      { eeprom := writeEEPROM (writeEEPROM c.eeprom 0 32 ssid) 32 64 password,
        savedSSID := ssid, savedPassword := password } := by
    unfold saveCredentials
    rw [if_neg (by omega)]
  have hl1 : (writeEEPROM c.eeprom 0 32 ssid).length = c.eeprom.length :=
    (writeEEPROM_from_spec 0 ssid 32 0 c.eeprom).1
  have hpw : readEEPROM (writeEEPROM (writeEEPROM c.eeprom 0 32 ssid) 32 64 password) 32 64
      = password :=
    read_after_write _ 32 64 password h3 (by omega) hp2
  have hss : readEEPROM (writeEEPROM (writeEEPROM c.eeprom 0 32 ssid) 32 64 password) 0 32
      = ssid := by
    unfold readEEPROM
    apply readEEPROM_from_spec _ _ _ 0 ssid h2 hp1
    intro j hj
    have e2 := (writeEEPROM_from_spec 32 password 64 0
      (writeEEPROM_from 0 ssid 32 0 c.eeprom)).2 (0 + 0 + j)
    have e1 := (writeEEPROM_from_spec 0 ssid 32 0 c.eeprom).2 (0 + 0 + j)
    unfold writeEEPROM
    rw [e2, if_neg (by omega), e1, if_pos (by omega)]
    have : 0 + 0 + j - 0 = j := by omega
    rw [this, getD_printable_mod ssid j hp1]
  have hall : ssid.all (fun ch => decide (32 ≤ ch ∧ ch ≤ 126)) = true := by
    rw [List.all_eq_true]
    intro ch hch
    exact decide_eq_true (hp1 ch hch)
  have hcond : ¬ (ssid.length = 0 ∨ ssid.length > 32 ∨ password.length > 64) := by omega
  have hfrom : ∀ s0 p0 : List Nat,
      loadCredentials
          { eeprom := writeEEPROM (writeEEPROM c.eeprom 0 32 ssid) 32 64 password,
            savedSSID := s0, savedPassword := p0 }
        = { eeprom := writeEEPROM (writeEEPROM c.eeprom 0 32 ssid) 32 64 password,
            savedSSID := ssid, savedPassword := password } := by
    intro s0 p0
    simp only [loadCredentials, hss, hpw, hcond, if_false, hall, if_true]
  have hload : loadCredentials (saveCredentials c ssid password) =
      { eeprom := writeEEPROM (writeEEPROM c.eeprom 0 32 ssid) 32 64 password,
        savedSSID := ssid, savedPassword := password } := by
    rw [hsave]
    exact hfrom ssid password
  refine ⟨by rw [hsave]; exact hss, by rw [hsave]; exact hpw,
    by rw [hsave]; exact hfrom ssid0 password0,
    by rw [hload], by rw [hload], by rw [hload, hsave], by rw [hsave], by rw [hsave],
    fun e offset maxLen value ha hb hc => read_after_write e offset maxLen value ha hb hc, ?_⟩
  intro c1 s p hlong
  unfold saveCredentials
  rw [if_pos hlong]

/-- Witness of C28: SSID `Home` and password `123` are saved into an erased
EEPROM of 96 bytes (all `0xFF`); a load that starts with empty globals, as
after a restart, restores both from the EEPROM, while the same load on the
erased EEPROM finds nothing. -/
theorem credential_round_trip_witness :
    (96 ≤ (List.replicate 96 255).length) ∧
    (loadCredentials
        { eeprom := (saveCredentials ⟨List.replicate 96 255, [], []⟩
            [72, 111, 109, 101] [49, 50, 51]).eeprom,
          savedSSID := [], savedPassword := [] }
      = { eeprom := (saveCredentials ⟨List.replicate 96 255, [], []⟩
            [72, 111, 109, 101] [49, 50, 51]).eeprom,
          savedSSID := [72, 111, 109, 101], savedPassword := [49, 50, 51] }) ∧
    (loadCredentials ⟨List.replicate 96 255, [], []⟩).savedSSID = [] ∧
    (saveCredentials ⟨List.replicate 96 255, [], []⟩
      [72, 111, 109, 101] [49, 50, 51]).eeprom.take 8 = [72, 111, 109, 101, 0, 0, 0, 0] :=
  ⟨by decide,
   (credential_round_trip ⟨List.replicate 96 255, [], []⟩ [72, 111, 109, 101] [49, 50, 51]
      [] [] (by decide) (by decide) (by decide) (by decide) (by decide) (by decide)).2.2.1,
   by decide, by decide⟩

/-! ## C29: alarm escalation -/

theorem secReachable_inv (x : Security) (h : SecReachable x) :
    x.familyMemberDetected = false ∧
    (match x.currentSecurityState with
      | .SECURITY_IDLE =>
        x.ownerSmsAlreadySent = false ∧ x.neighborSmsAlreadySent = false ∧
        x.ownerSmsRequests ≤ 1 ∧ x.neighborSmsRequests ≤ 1
      | .SECURITY_MOTION_DETECTED => False
      | .SECURITY_WAITING_OWNER_SMS =>
        x.ownerSmsAlreadySent = false ∧ x.neighborSmsAlreadySent = false ∧
        x.ownerSmsRequests = 0 ∧ x.neighborSmsRequests = 0
      | .SECURITY_WAITING_NEIGHBOR_SMS =>
        x.ownerSmsAlreadySent = true ∧ x.neighborSmsAlreadySent = false ∧
        x.ownerSmsRequests = 1 ∧ x.neighborSmsRequests = 0
      | .SECURITY_ALARM_ACTIVE =>
        x.ownerSmsAlreadySent = true ∧ x.neighborSmsAlreadySent = true ∧
        x.ownerSmsRequests = 1 ∧ x.neighborSmsRequests = 1) := by
  induction h with
  | reset => simp [resetSecurityState, initSecurity]
  | @motion x t1 t2 _ ih =>
    rcases x with ⟨st, m, l, o, n, f, oc, nc⟩
    cases st <;> simp_all [onMotionDetected]
  | @stamp x t _ ih =>
    rcases x with ⟨st, m, l, o, n, f, oc, nc⟩
    cases st <;> simp_all [updateMotionTimestamp]
  | @timers x t _ ih =>
    rcases x with ⟨st, m, l, o, n, f, oc, nc⟩
    obtain ⟨hf, hs⟩ := ih
    simp only at hf
    subst hf
    unfold checkSecurityTimers
    cases st
    · simp_all
    · simp at hs
    · simp only [if_neg (by simp : ¬ (SecurityState.SECURITY_WAITING_OWNER_SMS
          = SecurityState.SECURITY_IDLE ∨ false = true))]
      split
      · simp [resetSecurityState]; simp at hs; omega
      · split <;> simp_all
    · simp only [if_neg (by simp : ¬ (SecurityState.SECURITY_WAITING_NEIGHBOR_SMS
          = SecurityState.SECURITY_IDLE ∨ false = true))]
      split
      · simp [resetSecurityState]; simp at hs; omega
      · split <;> simp_all
    · simp only [if_neg (by simp : ¬ (SecurityState.SECURITY_ALARM_ACTIVE
          = SecurityState.SECURITY_IDLE ∨ false = true))]
      split
      · simp [resetSecurityState]; simp at hs; omega
      · simp_all
  | @ended x _ ih =>
    rcases x with ⟨st, m, l, o, n, f, oc, nc⟩
    cases st <;> simp_all [onMotionEnded, resetSecurityState]
  | @family x _ ih =>
    rcases x with ⟨st, m, l, o, n, f, oc, nc⟩
    cases st <;> simp_all [onFamilyMemberDetected, resetSecurityState]
  | @again x _ ih =>
    rcases x with ⟨st, m, l, o, n, f, oc, nc⟩
    cases st <;> simp_all [resetSecurityState]

/-- C29: in every state reachable from `resetSecurityState` by
`onMotionDetected`, `updateMotionTimestamp`, `checkSecurityTimers` (at any
clock values), `onMotionEnded` and `onFamilyMemberDetected`,
`SECURITY_WAITING_NEIGHBOR_SMS` implies `ownerSmsAlreadySent` and not
`neighborSmsAlreadySent`, `SECURITY_ALARM_ACTIVE` implies both flags,
`SECURITY_IDLE` and `SECURITY_WAITING_OWNER_SMS` imply neither, and
`SECURITY_MOTION_DETECTED` is never the state; each SMS is requested at most
once per motion episode, and in the alarm state both have been requested. -/
theorem alarm_escalation_invariant (x : Security) (h : SecReachable x) :
    (x.currentSecurityState = .SECURITY_WAITING_NEIGHBOR_SMS →
      x.ownerSmsAlreadySent = true ∧ x.neighborSmsAlreadySent = false) ∧
    (x.currentSecurityState = .SECURITY_ALARM_ACTIVE →
      x.ownerSmsAlreadySent = true ∧ x.neighborSmsAlreadySent = true) ∧
    (x.currentSecurityState = .SECURITY_IDLE →
      x.ownerSmsAlreadySent = false ∧ x.neighborSmsAlreadySent = false) ∧
    (x.currentSecurityState = .SECURITY_WAITING_OWNER_SMS →
      x.ownerSmsAlreadySent = false ∧ x.neighborSmsAlreadySent = false) ∧
    x.currentSecurityState ≠ .SECURITY_MOTION_DETECTED ∧
    x.ownerSmsRequests ≤ 1 ∧ x.neighborSmsRequests ≤ 1 ∧
    (x.currentSecurityState = .SECURITY_ALARM_ACTIVE →
      x.ownerSmsRequests = 1 ∧ x.neighborSmsRequests = 1) := by
  obtain ⟨_, hs⟩ := secReachable_inv x h
  rcases x with ⟨st, m, l, o, n, f, oc, nc⟩
  cases st <;> simp_all

/-- Witness of C29: motion at clock 1000 that lasts; the owner step at 21000
and the neighbour step at 41000 lead to the alarm state. -/
theorem alarm_escalation_invariant_witness :
    SecReachable (checkSecurityTimers (updateMotionTimestamp (checkSecurityTimers
      (updateMotionTimestamp (onMotionDetected (resetSecurityState initSecurity) 1000 1000)
        20500) 21000) 40500) 41000) ∧
    (checkSecurityTimers (updateMotionTimestamp (checkSecurityTimers
      (updateMotionTimestamp (onMotionDetected (resetSecurityState initSecurity) 1000 1000)
        20500) 21000) 40500) 41000).currentSecurityState = .SECURITY_ALARM_ACTIVE ∧
    (checkSecurityTimers (updateMotionTimestamp (checkSecurityTimers
      (updateMotionTimestamp (onMotionDetected (resetSecurityState initSecurity) 1000 1000)
        20500) 21000) 40500) 41000).ownerSmsRequests ≤ 1 :=
  ⟨SecReachable.timers _ (SecReachable.stamp _ (SecReachable.timers _
      (SecReachable.stamp _ (SecReachable.motion _ _ SecReachable.reset)))),
   by decide,
   (alarm_escalation_invariant _
      (SecReachable.timers _ (SecReachable.stamp _ (SecReachable.timers _
        (SecReachable.stamp _ (SecReachable.motion _ _ SecReachable.reset)))))).2.2.2.2.2.1⟩

/-! ## C30: servo angles -/

theorem axis_range (a : Int) (l r : Bool) (h : 0 ≤ a ∧ a ≤ 180) :
    0 ≤ (if r = true ∧ (if l = true ∧ a > 0 then max 0 (a - 4) else a) < 180
          then min 180 ((if l = true ∧ a > 0 then max 0 (a - 4) else a) + 4)
          else (if l = true ∧ a > 0 then max 0 (a - 4) else a)) ∧
    (if r = true ∧ (if l = true ∧ a > 0 then max 0 (a - 4) else a) < 180
          then min 180 ((if l = true ∧ a > 0 then max 0 (a - 4) else a) + 4)
          else (if l = true ∧ a > 0 then max 0 (a - 4) else a)) ≤ 180 ∧
    (if r = true ∧ (if l = true ∧ a > 0 then max 0 (a - 4) else a) < 180
          then min 180 ((if l = true ∧ a > 0 then max 0 (a - 4) else a) + 4)
          else (if l = true ∧ a > 0 then max 0 (a - 4) else a)) - a ≤ 4 ∧
    a - (if r = true ∧ (if l = true ∧ a > 0 then max 0 (a - 4) else a) < 180
          then min 180 ((if l = true ∧ a > 0 then max 0 (a - 4) else a) + 4)
          else (if l = true ∧ a > 0 then max 0 (a - 4) else a)) ≤ 4 := by
  generalize hb : (if l = true ∧ a > 0 then max 0 (a - 4) else a) = b
  have hbr : 0 ≤ b ∧ b ≤ a ∧ a - b ≤ 4 := by
    rw [← hb]
    split <;> omega
  split <;> omega

theorem update_servo1 (v : Servos) (l r d u : Bool) :
    (updateServoPositions v l r d u).servo1Angle =
      (if r = true ∧ (if l = true ∧ v.servo1Angle > 0 then max 0 (v.servo1Angle - 4)
            else v.servo1Angle) < 180
        then min 180 ((if l = true ∧ v.servo1Angle > 0 then max 0 (v.servo1Angle - 4)
            else v.servo1Angle) + 4)
        else (if l = true ∧ v.servo1Angle > 0 then max 0 (v.servo1Angle - 4)
            else v.servo1Angle)) := by
  simp only [updateServoPositions, MIN_ANGLE, MAX_ANGLE, SERVO_STEP]
  split <;> split <;> split <;> split <;> simp_all

theorem update_servo2 (v : Servos) (l r d u : Bool) :
    (updateServoPositions v l r d u).servo2Angle =
      (if u = true ∧ (if d = true ∧ v.servo2Angle > 0 then max 0 (v.servo2Angle - 4)
            else v.servo2Angle) < 180
        then min 180 ((if d = true ∧ v.servo2Angle > 0 then max 0 (v.servo2Angle - 4)
            else v.servo2Angle) + 4)
        else (if d = true ∧ v.servo2Angle > 0 then max 0 (v.servo2Angle - 4)
            else v.servo2Angle)) := by
  simp only [updateServoPositions, MIN_ANGLE, MAX_ANGLE, SERVO_STEP]
  split <;> split <;> split <;> split <;> simp_all

theorem updateServo_range (v : Servos) (l r d u : Bool)
    (h1 : 0 ≤ v.servo1Angle ∧ v.servo1Angle ≤ 180)
    (h2 : 0 ≤ v.servo2Angle ∧ v.servo2Angle ≤ 180) :
    (0 ≤ (updateServoPositions v l r d u).servo1Angle ∧
      (updateServoPositions v l r d u).servo1Angle ≤ 180) ∧
    (0 ≤ (updateServoPositions v l r d u).servo2Angle ∧
      (updateServoPositions v l r d u).servo2Angle ≤ 180) ∧
    ((updateServoPositions v l r d u).servo1Angle - v.servo1Angle ≤ 4 ∧
      v.servo1Angle - (updateServoPositions v l r d u).servo1Angle ≤ 4) ∧
    ((updateServoPositions v l r d u).servo2Angle - v.servo2Angle ≤ 4 ∧
      v.servo2Angle - (updateServoPositions v l r d u).servo2Angle ≤ 4) := by
  rw [update_servo1, update_servo2]
  obtain ⟨a1, a2, a3, a4⟩ := axis_range v.servo1Angle l r h1
  obtain ⟨b1, b2, b3, b4⟩ := axis_range v.servo2Angle d u h2
  exact ⟨⟨a1, a2⟩, ⟨b1, b2⟩, ⟨a3, a4⟩, ⟨b3, b4⟩⟩

/-- C30: if both angles are in `[0, 180]` before `updateServoPositions`, then
for every combination of the four hold flags both are in `[0, 180]` afterwards
and each changes by at most `SERVO_STEP = 4`; and in every state reachable
from the initial angles (90, 134) by updates and by `moveServoToCenter` both
angles are in `[0, 180]`. -/
theorem servo_angles_in_range (v : Servos) (l r d u : Bool)
    (h1 : 0 ≤ v.servo1Angle ∧ v.servo1Angle ≤ 180)
    (h2 : 0 ≤ v.servo2Angle ∧ v.servo2Angle ≤ 180) :
    (0 ≤ (updateServoPositions v l r d u).servo1Angle ∧
      (updateServoPositions v l r d u).servo1Angle ≤ 180) ∧
    (0 ≤ (updateServoPositions v l r d u).servo2Angle ∧
      (updateServoPositions v l r d u).servo2Angle ≤ 180) ∧
    ((updateServoPositions v l r d u).servo1Angle - v.servo1Angle ≤ SERVO_STEP ∧
      v.servo1Angle - (updateServoPositions v l r d u).servo1Angle ≤ SERVO_STEP) ∧
    ((updateServoPositions v l r d u).servo2Angle - v.servo2Angle ≤ SERVO_STEP ∧
      v.servo2Angle - (updateServoPositions v l r d u).servo2Angle ≤ SERVO_STEP) ∧
    SERVO_STEP = 4 ∧ initServos = ⟨90, 134⟩ ∧
    (∀ w : Servos, ServoReachable w →
      (0 ≤ w.servo1Angle ∧ w.servo1Angle ≤ 180) ∧ (0 ≤ w.servo2Angle ∧ w.servo2Angle ≤ 180)) := by
  obtain ⟨r1, r2, r3, r4⟩ := updateServo_range v l r d u h1 h2
  refine ⟨r1, r2, r3, r4, rfl, rfl, ?_⟩
  intro w hw
  induction hw with
  | init => decide
  | @update w0 a b c e _ ih =>
    obtain ⟨q1, q2, _, _⟩ := updateServo_range w0 a b c e ih.1 ih.2
    exact ⟨q1, q2⟩
  | center _ _ => simp [moveServoToCenter]

/-- Witness of C30: from (2, 180) with all four buttons held the angles
become (4, 180). -/
theorem servo_angles_in_range_witness :
    ((0 : Int) ≤ 2 ∧ (2 : Int) ≤ 180) ∧
    (0 ≤ (updateServoPositions ⟨2, 180⟩ true true true true).servo1Angle ∧
      (updateServoPositions ⟨2, 180⟩ true true true true).servo1Angle ≤ 180) ∧
    (updateServoPositions ⟨2, 180⟩ true true true true) = ⟨4, 180⟩ :=
  ⟨by decide,
   (servo_angles_in_range ⟨2, 180⟩ true true true true (by decide) (by decide)).1,
   by decide⟩

end Camera
